import Mathlib

/-!
Shallow embedding of the insight-english-apps extraction pipeline
(src/generate_and_deploy_v3.py, _v4.py, _v5.py, _v6.py) over `List Char`,
together with theorems settling the claims C1-C10.

Python strings are modelled as `List Char`.  Python string operations used
by the source (re.sub of whitespace runs, str.strip, str.index, str.rfind,
str.replace, slicing, substring test, str.split) are defined below,
faithful to CPython semantics on the inputs the programs handle.
-/

/-- Whitespace class: the ASCII characters matched by Python's regex
class \s and stripped by str.strip, plus the common Unicode spaces
(NBSP, ideographic space) that Python also treats as whitespace. -/
def isWS (c : Char) : Bool :=
  c == ' ' || c == '\t' || c == '\n' || c == '\r' ||
  c == '\x0b' || c == '\x0c' || c == ' ' || c == '　'

/-- Python str.strip(): remove leading and trailing whitespace. -/
def pyStrip (l : List Char) : List Char :=
  ((l.dropWhile isWS).reverse.dropWhile isWS).reverse

/-- Python re.sub(r'\s+', ' ', s): each maximal run of whitespace becomes
a single space. -/
def collapseWS : List Char → List Char
  | [] => []
  | [c] => if isWS c then [' '] else [c]
  | c :: d :: rest =>
    if isWS c && isWS d then collapseWS (d :: rest)
    else (if isWS c then ' ' else c) :: collapseWS (d :: rest)

/-- Whitespace normalization used throughout the sources:
re.sub(r'\s+', ' ', s).strip(). -/
def normWS (l : List Char) : List Char := pyStrip (collapseWS l)

/-- Index of the first occurrence of pat as a contiguous substring of hay
(Python str.find / str.index), none when absent. -/
def findSub (hay pat : List Char) : Option Nat :=
  (((List.range (hay.length + 1)).filter
      (fun i => pat.isPrefixOf (hay.drop i)))).head?

/-- Index of the last occurrence of pat as a contiguous substring of hay
(Python str.rfind), none when absent. -/
def rfindSub (hay pat : List Char) : Option Nat :=
  (((List.range (hay.length + 1)).filter
      (fun i => pat.isPrefixOf (hay.drop i)))).getLast?

/-- Python substring membership test pat in hay. -/
def isSubstring (hay pat : List Char) : Bool := (findSub hay pat).isSome

/-- Python slice s[a:b] for 0 ≤ a, b (clamped, empty when b ≤ a). -/
def pySlice (l : List Char) (a b : Nat) : List Char := (l.drop a).take (b - a)

/-- Core of Python str.replace for a non-empty pattern: scan left to
right, replacing each non-overlapping occurrence of pat by rep. -/
def replaceGo (pat rep : List Char) : Nat → List Char → List Char
  | 0, s => s
  | fuel + 1, s =>
    if pat ≠ [] ∧ pat.isPrefixOf s then rep ++ replaceGo pat rep fuel (s.drop pat.length)
    else
      match s with
      | [] => []
      | c :: rest => c :: replaceGo pat rep fuel rest

/-- Python str.replace(pat, rep) (all occurrences).  For the empty
pattern Python inserts rep before every character and at the end; the
sources only ever call replace with a non-empty pattern.  The fuel
given to the scanner is the string length, which each step strictly
decreases. -/
def pyReplace (s pat rep : List Char) : List Char :=
  if pat = [] then rep ++ (s.map (fun c => c :: rep)).flatten
  else replaceGo pat rep s.length s

/-- Character ranges whose Unicode names contain HIRAGANA, KATAKANA or
CJK.  This models the unicodedata.name-based tests of the sources by
Unicode block: the name lookup itself is an external table, embedded
here by the ranges of code points whose names carry those words. -/
def charHiragana (c : Char) : Bool :=
  (0x3041 ≤ c.toNat && c.toNat ≤ 0x3096) ||
  (0x3099 ≤ c.toNat && c.toNat ≤ 0x30a0) || c.toNat == 0x30fc

/-- Code points whose Unicode names contain KATAKANA. -/
def charKatakana (c : Char) : Bool :=
  (0x30a0 ≤ c.toNat && c.toNat ≤ 0x30ff) ||
  (0x3099 ≤ c.toNat && c.toNat ≤ 0x309c) ||
  (0x31f0 ≤ c.toNat && c.toNat ≤ 0x31ff) ||
  (0xff66 ≤ c.toNat && c.toNat ≤ 0xff9d)

/-- Code points whose Unicode names contain CJK. -/
def charCJK (c : Char) : Bool :=
  (0x2e80 ≤ c.toNat && c.toNat ≤ 0x2ef3) ||
  (0x31c0 ≤ c.toNat && c.toNat ≤ 0x31e3) ||
  (0x3400 ≤ c.toNat && c.toNat ≤ 0x4dbf) ||
  (0x4e00 ≤ c.toNat && c.toNat ≤ 0x9fff) ||
  (0xf900 ≤ c.toNat && c.toNat ≤ 0xfaff)

/-- is_japanese of generate_and_deploy_v4/v5/v6.py: some character's
Unicode name contains HIRAGANA, KATAKANA or CJK. -/
def is_japanese (t : List Char) : Bool :=
  t.any (fun c => charHiragana c || charKatakana c || charCJK c)

/-- is_japanese of generate_and_deploy_v3.py: only HIRAGANA and CJK are
tested there (KATAKANA is absent from the v3 predicate). -/
def is_japanese_v3 (t : List Char) : Bool :=
  t.any (fun c => charHiragana c || charCJK c)

/-- Blank-opening delimiter of a question: the regex class [(（]. -/
def isOpenPar (c : Char) : Bool := c == '(' || c == '（'

/-- Blank-closing delimiter of a question: the regex class [)）]. -/
def isClosePar (c : Char) : Bool := c == ')' || c == '）'

/-- Index of the last closing parenthesis, as computed by the
enumerate loop of find_answer_part in generate_and_deploy_v4.py
(last_paren_index, none standing for -1). -/
def lastParenIndex (q : List Char) : Option Nat :=
  q.enum.foldl (fun acc p => if isClosePar p.2 then some p.1 else acc) none

/-- find_answer_part of generate_and_deploy_v4.py (lines 58-95):
normalize whitespace; first [(（] starts the blank region; text before
it (stripped) is the anchor before the blank, text after the last [)）]
(stripped) the anchor after it; the answer is the normalized filled
sentence sliced from the end of the first occurrence of the left anchor
to the start of the last occurrence of the right anchor, stripped. -/
def find_answer_part_v4 (question full_sentence : List Char) : Option (List Char) :=
  let q := normWS question
  let f := normWS full_sentence
  match q.findIdx? isOpenPar with
  | none => none
  | some s =>
    let pre := pyStrip (q.take s)
    let suf : List Char :=
      if q.any isClosePar then
        match lastParenIndex q with
        | some i => pyStrip (q.drop (i + 1))
        | none => []
      else []
    let start_idx : Nat :=
      if pre = [] then 0
      else match findSub f pre with
        | some j => j + pre.length
        | none => 0
    let end_idx : Nat :=
      if suf = [] then f.length
      else match rfindSub f suf with
        | some j => j
        | none => f.length
    some (pyStrip (pySlice f start_idx end_idx))

/-- Length of the longest common character-wise prefix, as computed by
the counting loops of find_answer_part in generate_and_deploy_v5.py
(the suffix length is this function applied to the reversed strings). -/
def commonPrefixLen : List Char → List Char → Nat
  | a :: as, b :: bs => if a = b then commonPrefixLen as bs + 1 else 0
  | _, _ => 0

/-- find_answer_part of generate_and_deploy_v5.py (lines 58-134).
Differences from the v4 version, kept faithful to the source: the
right anchor comes from re.search(r'[)）](.*)$', rest), whose leftmost
match starts at the FIRST closing parenthesis of the region from the
first opening parenthesis on; the candidate then has all '(' and ')'
characters removed and is re-stripped.  A second branch handles
underscore blanks, and a third the diff-based prefix/suffix fallback. -/
def find_answer_part_v5 (question full_sentence : List Char) : Option (List Char) :=
  let q := normWS question
  let f := normWS full_sentence
  match q.findIdx? isOpenPar with
  | some s =>
    let pre := pyStrip (q.take s)
    let rest := q.drop s
    let suf : List Char :=
      match rest.findIdx? isClosePar with
      | some i => pyStrip (rest.drop (i + 1))
      | none => []
    let start_idx : Nat :=
      if pre = [] then 0
      else match findSub f pre with
        | some j => j + pre.length
        | none => 0
    let end_idx : Nat :=
      if suf = [] then f.length
      else match rfindSub f suf with
        | some j => j
        | none => f.length
    let candidate := pyStrip (pySlice f start_idx end_idx)
    some (pyStrip (pyReplace (pyReplace candidate ['('] []) [')'] []))
  | none =>
    match q.findIdx? (fun c => c == '_') with
    | some u =>
      let runLen := ((q.drop u).takeWhile (fun c => c == '_')).length
      let pre := pyStrip (q.take u)
      let suf := pyStrip (q.drop (u + runLen))
      let start_idx : Nat :=
        if pre = [] then 0
        else match findSub f pre with
          | some j => j + pre.length
          | none => 0
      let end_idx : Nat :=
        if suf = [] then f.length
        else match rfindSub f suf with
          | some j => j
          | none => f.length
      some (pyStrip (pySlice f start_idx end_idx))
    | none =>
      let p := commonPrefixLen q f
      let s := commonPrefixLen q.reverse f.reverse
      if p > 0 || s > 0 then
        if p + s < f.length then some (pyStrip (pySlice f p (f.length - s)))
        else none
      else none

/-- Spec-side Priority-3 fallback, written from the claim C3 text:
longest common prefix length P and longest common suffix length S
between the whitespace-normalized question and filled sentence,
result = filled sentence sliced [P, length - S), trimmed. -/
def priority3Answer (question filled : List Char) : List Char :=
  let q := normWS question
  let f := normWS filled
  let p := commonPrefixLen q f
  let s := commonPrefixLen q.reverse f.reverse
  pyStrip (pySlice f p (f.length - s))

/-- Spec-side Priority-2 extraction, written from the claim C1 text:
after whitespace normalization of both strings, prefix = question text
before the first blank-opening delimiter and suffix = question text
after the last blank-closing delimiter (both trimmed, per the
normalization clause); startIndex = end of the first occurrence of the
prefix in the filled sentence (start of string if absent); endIndex =
start of the last occurrence of the suffix (end of string if absent);
result = the slice [startIndex, endIndex) trimmed. -/
def priority2Answer (question filled : List Char) : List Char :=
  let q := normWS question
  let f := normWS filled
  let s := (q.findIdx? isOpenPar).getD 0
  let pre := pyStrip (q.take s)
  let suf : List Char :=
    match lastParenIndex q with
    | some i => pyStrip (q.drop (i + 1))
    | none => []
  let startIndex : Nat :=
    if pre = [] then 0
    else match findSub f pre with
      | some j => j + pre.length
      | none => 0
  let endIndex : Nat :=
    if suf = [] then f.length
    else match rfindSub f suf with
      | some j => j
      | none => f.length
  pyStrip (pySlice f startIndex endIndex)

/-- Placeholder wrapping of an answer: the Python f-string
interpolation producing the three-character-decorated copy of ans. -/
def wrapBr (a : List Char) : List Char := '{' :: (a ++ ['}'])

/-- Answer and transformed sentence fields computed by save_current in
generate_and_deploy_v4.py (lines 107-118): if find_answer_part yields a
non-empty substring of the raw filled sentence, wrap every occurrence
of it (Python str.replace) in braces; otherwise keep the sentence and
use the sentinel answer. -/
structure V4Ans where
  answer : List Char
  en : List Char
deriving DecidableEq, Repr

/-- The sentinel placeholder string used by the sources. -/
def sentinel : List Char := ['?', '?', '?']

/-- Core of save_current (generate_and_deploy_v4.py lines 107-118). -/
def v4AnswerEn (q f : List Char) : V4Ans :=
  match find_answer_part_v4 q f with
  | some a =>
    if a ≠ [] ∧ isSubstring f a then
      { answer := a, en := pyReplace f a (wrapBr a) }
    else
      { answer := sentinel, en := f }
  | none => { answer := sentinel, en := f }

/-- String constant "Tip" used by the garbage filters. -/
def tipPre : List Char := ['T', 'i', 'p']

/-- String constant "Words to Use" used by the garbage filters. -/
def wordsToUse : List Char := "Words to Use".data

/-- String constant 基本 used by the garbage filters. -/
def kihon : List Char := "基本".data

/-- Python re.match(r'^F\s*\d+', line): an F, optional whitespace, then
at least one digit, as a prefix of the line. -/
def fCodePre (l : List Char) : Bool :=
  match l with
  | 'F' :: r =>
    match r.dropWhile isWS with
    | c :: _ => c.isDigit
    | [] => false
  | _ => false

/-- Parser state names of parse_chapter_text in generate_and_deploy_v4.py. -/
inductive V4Mode
  | FIND_ID
  | JAPANESE
  | WAITING_FOR_FULL_SENTENCE
  | POST_ID_SEARCH
  | EXPLANATION
deriving DecidableEq, Repr

/-- The mutable current_item dictionary of parse_chapter_text (v4):
keys id, ja, question, explanation_lines always present, en_full
present only once the worked sentence has been found. -/
structure V4Acc where
  id : List Char
  ja : List Char
  question : List Char
  en_full : Option (List Char)
  expl : List (List Char)
deriving DecidableEq, Repr

/-- The cleaned output record appended by save_current (v4). -/
structure V4Out where
  id : List Char
  ja : List Char
  en : List Char
  answer : List Char
  explanation : List Char
deriving DecidableEq, Repr

/-- The loop state of parse_chapter_text (v4): emitted items, the open
item, the pre-ID look-back buffer and the state tag. -/
structure V4State where
  items : List V4Out
  cur : Option V4Acc
  buf : List (List Char)
  mode : V4Mode
deriving DecidableEq, Repr

/-- save_current of generate_and_deploy_v4.py (lines 107-131): emit the
open item when it has an identifier and a filled sentence, computing
answer and wrapped sentence, joining explanation lines, and taking the
Japanese field retroactively from the look-back buffer if still empty. -/
def v4Save (cur : V4Acc) (buf : List (List Char)) : Option V4Out :=
  match cur.en_full with
  | some f =>
    if cur.id ≠ [] ∧ f ≠ [] then
      let A := v4AnswerEn cur.question f
      let expl := pyStrip (List.intercalate ['\n'] cur.expl)
      let ja :=
        if cur.ja = [] ∧ buf ≠ [] then
          let jl := buf.filter is_japanese
          if jl ≠ [] then List.intercalate [' '] jl else cur.ja
        else cur.ja
      some { id := cur.id, ja := ja, en := A.en, answer := A.answer, explanation := expl }
    else none
  | none => none

/-- Python re.match(r'^(\d+(-\d+)?)(.*)$', line) of v4: a maximal
leading digit run, optionally a dash and a further maximal digit run,
and the arbitrary remainder as group 3. -/
def v4IdMatch (l : List Char) : Option (List Char × List Char) :=
  let d1 := l.takeWhile Char.isDigit
  if d1 = [] then none
  else
    let r1 := l.drop d1.length
    match r1 with
    | '-' :: r2 =>
      let d2 := r2.takeWhile Char.isDigit
      if d2 = [] then some (d1, r1)
      else some (d1 ++ '-' :: d2, r2.drop d2.length)
    | _ => some (d1, r1)

/-- Transition taken by parse_chapter_text (v4) when a fresh identifier
header opens a new item: seal the open item, then attach the Japanese
lines of the look-back buffer retroactively and clear the buffer. -/
def v4NewItem (st : V4State) (mid : List Char) : V4State :=
  let items' := match st.cur with
    | some c => st.items ++ (v4Save c st.buf).toList
    | none => st.items
  let jaCand := st.buf.filter (fun l => is_japanese l ∧ ¬ tipPre.isPrefixOf l)
  let ja := if jaCand ≠ [] then List.intercalate [' '] jaCand else []
  { items := items',
    cur := some ({ id := mid, ja := ja, question := [], en_full := none, expl := [] }),
    buf := [],
    mode := .JAPANESE }

/-- State dispatch of parse_chapter_text (v4) for a line that is not an
identifier line. -/
def v4NonId (st : V4State) (line : List Char) : V4State :=
  match st.cur with
  | none => { st with buf := st.buf ++ [line] }
  | some c =>
    match st.mode with
    | .JAPANESE =>
      if wordsToUse.isPrefixOf line ∨ line = kihon then st
      else if is_japanese line then
        let ja' := if c.ja ≠ [] then c.ja ++ ' ' :: line else line
        { st with cur := some ({ c with ja := ja' }) }
      else if line.contains '(' ∨ line.contains '（' then
        { st with cur := some ({ c with question := line }), mode := .WAITING_FOR_FULL_SENTENCE }
      else { st with buf := st.buf ++ [line] }
    | .WAITING_FOR_FULL_SENTENCE => { st with buf := st.buf ++ [line] }
    | .POST_ID_SEARCH =>
      if fCodePre line ∨ tipPre.isPrefixOf line then st
      else if is_japanese line then { st with buf := st.buf ++ [line] }
      else if line.length > 2 then
        { st with cur := some ({ c with en_full := some line }), mode := .EXPLANATION }
      else st
    | .EXPLANATION =>
      if line = wordsToUse then { st with buf := [] }
      else { st with cur := some ({ c with expl := c.expl ++ [line] }), buf := st.buf ++ [line] }
    | .FIND_ID => st

/-- One iteration of the main loop of parse_chapter_text (v4). -/
def v4Step (st : V4State) (rawLine : List Char) : V4State :=
  let line := pyStrip rawLine
  if line = [] then st
  else
    match v4IdMatch line with
    | some (mid, rest0) =>
      if mid.length < 6 then
        let rest := pyStrip rest0
        match st.cur with
        | some c =>
          if c.id = mid then
            if rest.length > 5 ∧ ¬ is_japanese rest then
              { st with cur := some ({ c with en_full := some rest }),
                        mode := .EXPLANATION, buf := [] }
            else
              { st with mode := .POST_ID_SEARCH, buf := [] }
          else v4NewItem st mid
        | none => v4NewItem st mid
      else v4NonId st line
    | none => v4NonId st line

/-- parse_chapter_text of generate_and_deploy_v4.py (lines 97-243). -/
def parse_chapter_text_v4 (lines : List (List Char)) : List V4Out :=
  let st := lines.foldl v4Step { items := [], cur := none, buf := [], mode := .FIND_ID }
  match st.cur with
  | some c => st.items ++ (v4Save c st.buf).toList
  | none => st.items

/-- Python re.match(r'^F\s+\d+$', line) of v5: an F, at least one
whitespace character, then only digits to the end of the line. -/
def fCodeFull (l : List Char) : Bool :=
  match l with
  | 'F' :: r =>
    let ws := r.takeWhile isWS
    if ws.isEmpty then false
    else
      let r2 := r.drop ws.length
      !r2.isEmpty && r2.all Char.isDigit
  | _ => false

/-- The garbage filter at the top of the block-collection loop of
parse_chapter_text_v5 (generate_and_deploy_v5.py lines 148-152). -/
def v5Garbage (l : List Char) : Bool :=
  fCodeFull l || tipPre.isPrefixOf l || l.contains 'ʁ' || l.contains 'Ͱ' ||
  l == wordsToUse

/-- Python re.match(r'^(\d+(?:-\d+)?)(?:\s+(.*))?$', line) of v5: an
identifier (digits, optional dash and digits) that is the whole line or
is followed by whitespace and arbitrary content (group 2). -/
def v5IdMatch (l : List Char) : Option (List Char × Option (List Char)) :=
  let d1 := l.takeWhile Char.isDigit
  if d1 = [] then none
  else
    let r1 := l.drop d1.length
    let p : List Char × List Char :=
      match r1 with
      | '-' :: r2 =>
        let d2 := r2.takeWhile Char.isDigit
        if d2 = [] then (d1, r1) else (d1 ++ '-' :: d2, r2.drop d2.length)
      | _ => (d1, r1)
    match p.2 with
    | [] => some (p.1, none)
    | c :: _ => if isWS c then some (p.1, some (p.2.dropWhile isWS)) else none

/-- A block accumulated by parse_chapter_text_v5: identifier plus the
raw content lines collected under it. -/
structure V5Block where
  id : List Char
  lines : List (List Char)
deriving DecidableEq, Repr

/-- State of the block-collection pass of parse_chapter_text_v5. -/
structure V5Phase1 where
  blocks : List V5Block
  cur : Option V5Block
deriving DecidableEq, Repr

/-- One iteration of the block-collection loop of
parse_chapter_text_v5 (generate_and_deploy_v5.py lines 145-179). -/
def v5CollectLine (st : V5Phase1) (rawLine : List Char) : V5Phase1 :=
  let line := pyStrip rawLine
  if line = [] then st
  else if v5Garbage line then st
  else
    let newId : Option (List Char × List Char) :=
      match v5IdMatch line with
      | some (potId, contentO) =>
        let potContent := contentO.getD []
        if pyStrip potContent ≠ [] ∧ (pyStrip potContent).all Char.isDigit then none
        else if potId.length < 6 then some (potId, potContent)
        else none
      | none => none
    match newId with
    | some (idStr, content) =>
      let blocks' := match st.cur with
        | some b => st.blocks ++ [b]
        | none => st.blocks
      let cur' : V5Block :=
        if pyStrip content ≠ [] then { id := idStr, lines := [pyStrip content] }
        else { id := idStr, lines := [] }
      { blocks := blocks', cur := some cur' }
    | none =>
      match st.cur with
      | some b => { st with cur := some ({ b with lines := b.lines ++ [line] }) }
      | none => st

/-- Lookup in an insertion-ordered association list, modelling a Python
dict (keys here are never duplicated by construction). -/
def alookup (m : List (List Char × α)) (k : List Char) : Option α :=
  (m.find? (fun p => p.1 == k)).map (fun p => p.2)

/-- Python dict membership test. -/
def amem (m : List (List Char × α)) (k : List Char) : Bool :=
  (alookup m k).isSome

/-- questions[bid]['lines'].extend(lines) or fresh insertion, from
parse_chapter_text_v5. -/
def qInsert (m : List (List Char × List (List Char))) (k : List Char)
    (ls : List (List Char)) : List (List Char × List (List Char)) :=
  if amem m k then m.map (fun p => if p.1 == k then (p.1, p.2 ++ ls) else p)
  else m ++ [(k, ls)]

/-- The ▶-based answer/explanation split inside the answer-block branch
of parse_chapter_text_v5 (lines 206-221). -/
def v5SplitAnswer (lines : List (List Char)) :
    List (List Char) × List (List Char) :=
  let r := lines.foldl
    (fun (acc : List (List Char) × List (List Char) × Bool) (l : List Char) =>
      if l.contains '▶' then
        let i := (l.findIdx? (fun c => c == '▶')).getD 0
        let before := pyStrip (l.take i)
        let after := pyStrip (l.drop (i + 1))
        let ansL := if before ≠ [] then acc.1 ++ [before] else acc.1
        (ansL, acc.2.1 ++ ['▶' :: ' ' :: after], true)
      else if acc.2.2 then (acc.1, acc.2.1 ++ [l], acc.2.2)
      else (acc.1 ++ [l], acc.2.1, acc.2.2))
    ([], [], false)
  (r.1, r.2.1)

/-- The three dictionaries filled by the block-processing pass of
parse_chapter_text_v5 (lines 185-233). -/
structure V5Dicts where
  answers : List (List Char × List Char)
  explanations : List (List Char × List Char)
  questions : List (List Char × List (List Char))
deriving DecidableEq, Repr

/-- Processing of one block by parse_chapter_text_v5 (lines 189-233):
an answer block contains ▶ or is blankless non-Japanese text; the
first answer block per identifier wins; question blocks accumulate. -/
def v5ProcessBlock (d : V5Dicts) (b : V5Block) : V5Dicts :=
  let fullText := List.intercalate [' '] b.lines
  let isAnswer := fullText.contains '▶' ||
    (!is_japanese fullText && !isSubstring fullText "___".data &&
     !fullText.contains '(')
  if isAnswer then
    if amem d.answers b.id then d
    else
      let p := v5SplitAnswer b.lines
      { d with
        answers := d.answers ++ [(b.id, pyStrip (List.intercalate [' '] p.1))],
        explanations :=
          d.explanations ++ [(b.id, pyStrip (List.intercalate ['\n'] p.2))] }
  else
    { d with questions := qInsert d.questions b.id b.lines }

/-- Digit run to the natural number it denotes. -/
def digitsToNat (ds : List Char) : Nat :=
  ds.foldl (fun n c => n * 10 + (c.toNat - '0'.toNat)) 0

/-- Python int(str): optional surrounding whitespace, optional sign,
then at least one digit (the underscore-separator extension of CPython
is not exercised by the sources). none models a raised ValueError. -/
def pyIntOfStr (l : List Char) : Option Int :=
  match pyStrip l with
  | [] => none
  | '-' :: ds =>
    if ds ≠ [] ∧ ds.all Char.isDigit then some (-(digitsToNat ds : Int)) else none
  | '+' :: ds =>
    if ds ≠ [] ∧ ds.all Char.isDigit then some ((digitsToNat ds : Int)) else none
  | ds => if ds.all Char.isDigit then some ((digitsToNat ds : Int)) else none

/-- Python str.split(sep) for a one-character separator: the pieces
between separator occurrences, empty pieces kept. -/
def pySplitOn (sep : Char) : List Char → List (List Char)
  | [] => [[]]
  | c :: rest =>
    let r := pySplitOn sep rest
    if c = sep then [] :: r
    else match r with
      | h :: t => (c :: h) :: t
      | [] => [[c]]

/-- sort_key of generate_and_deploy_v5.py (lines 239-242) and
generate_and_deploy_v6.py (lines 95-98): split the identifier on
dashes and convert every part to int, or [9999] when any part fails. -/
def sort_key (s : List Char) : List Int :=
  let parts := pySplitOn '-' s
  match parts.mapM pyIntOfStr with
  | some ns => ns
  | none => [9999]

/-- Python list-of-int comparison: lexicographic, a strict prefix
preceding every extension. -/
def pyListLe : List Int → List Int → Bool
  | [], _ => true
  | _ :: _, [] => false
  | a :: as, b :: bs =>
    if a < b then true else if b < a then false else pyListLe as bs

/-- The ordering Python sorted(ids, key=sort_key) sorts by. -/
def pyKeyLe (a b : List Char) : Prop := pyListLe (sort_key a) (sort_key b) = true

instance : DecidableRel pyKeyLe := fun a b =>
  inferInstanceAs (Decidable (_ = true))

/-- Python sorted(ids, key=sort_key): a stable ascending sort by key.
CPython uses a stable mergesort; a stable insertion sort produces the
same list for a total preorder, and is structurally recursive. -/
def v5SortIds (ids : List (List Char)) : List (List Char) :=
  List.insertionSort pyKeyLe ids

/-- all_ids = set(answers) | set(questions), iterated in first-seen
order.  CPython iterates sets in unspecified order; since sorted
reorders everything by key, the choice only affects ties between
distinct identifiers with equal keys, which no claim depends on. -/
def v5AllIds (d : V5Dicts) : List (List Char) :=
  let aks := d.answers.map (fun p => p.1)
  let qks := (d.questions.map (fun p => p.1)).filter (fun k => !aks.contains k)
  aks ++ qks

/-- The final item record emitted by parse_chapter_text_v5. -/
structure V5Item where
  id : List Char
  ja : List Char
  en : List Char
  answer : List Char
  explanation : List Char
  question : List Char
deriving DecidableEq, Repr

/-- The assembly loop body of parse_chapter_text_v5 (lines 246-295):
skip identifiers with neither question data nor truthy answer text,
split question lines into Japanese and English, fall back to the
sentinel, locate the answer and wrap its occurrences. -/
def v5Assemble (d : V5Dicts) (idStr : List Char) : Option V5Item :=
  let qData := alookup d.questions idStr
  let aTextO := alookup d.answers idStr
  let expl := (alookup d.explanations idStr).getD []
  let aFalsy : Bool := match aTextO with
    | none => true
    | some t => t.isEmpty
  if qData.isNone && aFalsy then none
  else
    let jaEn : List Char × List Char :=
      match qData with
      | some ls =>
        let ls' := ls.filter (fun l => l ≠ kihon)
        (List.intercalate [' '] (ls'.filter (fun l => is_japanese l)),
         List.intercalate [' '] (ls'.filter (fun l => !is_japanese l)))
      | none => (sentinel, sentinel)
    let aText := match aTextO with
      | some t => if t = [] then sentinel else t
      | none => sentinel
    let target :=
      if jaEn.2 ≠ sentinel ∧ aText ≠ sentinel then
        match find_answer_part_v5 jaEn.2 aText with
        | some dt => if dt ≠ [] then dt else sentinel
        | none => sentinel
      else sentinel
    let parsedEn :=
      if target ≠ sentinel ∧ isSubstring aText target then
        pyReplace aText target (wrapBr target)
      else aText
    some { id := idStr, ja := jaEn.1, en := parsedEn, answer := target,
           explanation := expl, question := jaEn.2 }

/-- parse_chapter_text_v5 of generate_and_deploy_v5.py (lines 138-297). -/
def parse_chapter_text_v5 (lines : List (List Char)) : List V5Item :=
  let ph1 := lines.foldl v5CollectLine { blocks := [], cur := none }
  let blocks := ph1.blocks ++ ph1.cur.toList
  let d := blocks.foldl v5ProcessBlock
    { answers := [], explanations := [], questions := [] }
  (v5SortIds (v5AllIds d)).filterMap (v5Assemble d)

/-- An ASCII letter, the regex class [a-zA-Z]. -/
def isLatinLetter (c : Char) : Bool :=
  ('a' ≤ c && c ≤ 'z') || ('A' ≤ c && c ≤ 'Z')

/-- Python re.match(r'^Chapter\s*\d+', line, re.IGNORECASE). -/
def chapterPre (l : List Char) : Bool :=
  ((l.take 7).map Char.toLower == "chapter".data) &&
  (match (l.drop 7).dropWhile isWS with
   | c :: _ => c.isDigit
   | [] => false)

/-- Python re.match(r'^(\d+(?:-\d+)?)$', line): the whole line is an
identifier. -/
def idFull (l : List Char) : Bool :=
  let d1 := l.takeWhile Char.isDigit
  if d1.isEmpty then false
  else match l.drop d1.length with
    | [] => true
    | '-' :: r2 => !r2.isEmpty && r2.all Char.isDigit
    | _ => false

/-- Python re.match(r'^(-\d+)(?:＝)?$', line): a bare sub-index
continuation marker, optionally decorated with a trailing ＝. -/
def negIdFull (l : List Char) : Bool :=
  match l with
  | '-' :: r =>
    let d := r.takeWhile Char.isDigit
    !d.isEmpty && (r.drop d.length == [] || r.drop d.length == ['＝'])
  | _ => false

/-- Python re.search(r'[\(（]\s*[\)）]', line): an empty (or
whitespace-only) parenthesis pair somewhere in the line. -/
def hasEmptyParens : List Char → Bool
  | [] => false
  | c :: rest =>
    (isOpenPar c && (match rest.dropWhile isWS with
      | d :: _ => isClosePar d
      | [] => false)) || hasEmptyParens rest

/-- Decomposition behind the v3 regexes ^(\d+(?:-\d+)?)\s+(...) :
identifier, the maximal whitespace run after it (non-empty), and the
remainder.  none when the line does not start with an identifier
followed by whitespace. -/
def v3IdPair (l : List Char) : Option (List Char × List Char × List Char) :=
  let d1 := l.takeWhile Char.isDigit
  if d1 = [] then none
  else
    let r1 := l.drop d1.length
    let p : List Char × List Char :=
      match r1 with
      | '-' :: r2 =>
        let d2 := r2.takeWhile Char.isDigit
        if d2 = [] then (d1, r1) else (d1 ++ '-' :: d2, r2.drop d2.length)
      | _ => (d1, r1)
    let ws := p.2.takeWhile isWS
    if ws = [] then none
    else some (p.1, ws, p.2.drop ws.length)

/-- Group 2 of re.match(r'^(\d+(?:-\d+)?)\s+([^a-zA-Z].*)$', line)
given the maximal whitespace run and the remainder: the regex engine
first offers the remainder (maximal \s+); when its first character is
a letter, or it is empty, the engine backtracks one whitespace
character into group 2 provided the run is at least two long. -/
def v3G2NonLatin (ws rem : List Char) : Option (List Char) :=
  match rem with
  | c :: _ =>
    if isLatinLetter c then
      if ws.length ≥ 2 then
        match ws.reverse with
        | w :: _ => some (w :: rem)
        | [] => none
      else none
    else some rem
  | [] =>
    if ws.length ≥ 2 then
      match ws.reverse with
      | w :: _ => some [w]
      | [] => none
    else none

/-- Line categories of classify_line in generate_and_deploy_v3.py,
carrying the payloads the source returns alongside the tag. -/
inductive V3Class
  | EMPTY
  | GARBAGE
  | ID_ONLY (idStr : List Char)
  | ID_JAPANESE (idStr text : List Char)
  | ID_ENGLISH (idStr text : List Char)
  | QUESTION_LINE (text : List Char)
  | JAPANESE_LINE (text : List Char)
  | ENGLISH_TEXT (text : List Char)
deriving DecidableEq, Repr

/-- Content-pattern tail of classify_line (v3 lines 129-136). -/
def v3Content (line : List Char) : V3Class :=
  if (line.contains '(' || line.contains '（') && hasEmptyParens line then
    .QUESTION_LINE line
  else if is_japanese_v3 line then .JAPANESE_LINE line
  else .ENGLISH_TEXT line

/-- ID_ENGLISH attempt of classify_line, falling back to the content
patterns: group 2 of ^(\d+(?:-\d+)?)\s+([a-zA-Z].*)$ must begin with a
letter, which only the maximal whitespace split can give. -/
def v3IdEnglishOr (line idStr rem : List Char) : V3Class :=
  match rem with
  | c :: _ => if isLatinLetter c then .ID_ENGLISH idStr rem else v3Content line
  | [] => v3Content line

/-- classify_line of generate_and_deploy_v3.py (lines 99-136). -/
def classify_line (rawLine : List Char) : V3Class :=
  let line := pyStrip rawLine
  if line = [] then .EMPTY
  else if tipPre.isPrefixOf line then .GARBAGE
  else if fCodePre line then .GARBAGE
  else if wordsToUse.isPrefixOf line || line == kihon then .GARBAGE
  else if chapterPre line then .GARBAGE
  else if idFull line || negIdFull line then
    .ID_ONLY (line.takeWhile (fun c => c ≠ '＝'))
  else
    match v3IdPair line with
    | some (idStr, ws, rem) =>
      match v3G2NonLatin ws rem with
      | some g2 =>
        if is_japanese_v3 g2 then .ID_JAPANESE idStr g2
        else v3IdEnglishOr line idStr rem
      | none => v3IdEnglishOr line idStr rem
    | none => v3Content line

/-- The item dictionary accumulated by parse_lines_v3. -/
structure V3ItemAcc where
  id : List Char
  ja : List Char
  en_full : List Char
  question : List Char
  expl : List (List Char)
deriving DecidableEq, Repr

/-- Loop state of parse_lines_v3: finished items, the open item, and
the floating-Japanese buffer. -/
structure V3State where
  items : List V3ItemAcc
  cur : Option V3ItemAcc
  jbuf : List (List Char)
deriving DecidableEq, Repr

/-- The provisional identifier used by parse_lines_v3 for orphan
questions. -/
def pendingId : List Char := "PENDING".data

/-- An empty v3 item with the given identifier. -/
def v3Fresh (idStr : List Char) : V3ItemAcc :=
  { id := idStr, ja := [], en_full := [], question := [], expl := [] }

/-- One iteration of the main loop of parse_lines_v3
(generate_and_deploy_v3.py lines 172-290). -/
def v3Step (st : V3State) (line : List Char) : V3State :=
  match classify_line line with
  | .EMPTY => st
  | .GARBAGE => st
  | .ID_ONLY rawId =>
    let items' := match st.cur with
      | some c => st.items ++ [c]
      | none => st.items
    let newItem : V3ItemAcc :=
      match rawId with
      | '-' :: _ =>
        match items'.getLast? with
        | some prev =>
          v3Fresh (prev.id.takeWhile (fun c => c ≠ '-') ++ rawId)
        | none => v3Fresh rawId
      | _ => v3Fresh rawId
    { items := items', cur := some newItem, jbuf := [] }
  | .ID_JAPANESE idStr jp =>
    let items' := match st.cur with
      | some c => st.items ++ [c]
      | none => st.items
    { items := items', cur := some ({ (v3Fresh idStr) with ja := jp }), jbuf := [] }
  | .JAPANESE_LINE d =>
    match st.cur with
    | some c =>
      if c.question = [] then
        { st with cur := some ({ c with ja := if c.ja = [] then d else c.ja ++ ' ' :: d }) }
      else if c.en_full ≠ [] then
        { st with cur := some ({ c with expl := c.expl ++ [d] }) }
      else { st with jbuf := st.jbuf ++ [d] }
    | none => { st with jbuf := st.jbuf ++ [d] }
  | .QUESTION_LINE d =>
    match st.cur with
    | some c =>
      if c.question = [] then
        let consume := c.ja = [] ∧ st.jbuf ≠ []
        let ja' := if consume then List.intercalate [' '] st.jbuf else c.ja
        let c' : V3ItemAcc := { c with question := d, ja := ja' }
        { st with cur := some c', jbuf := if consume then [] else st.jbuf }
      else if c.en_full ≠ [] then
        let c' : V3ItemAcc :=
          { (v3Fresh pendingId) with ja := List.intercalate [' '] st.jbuf, question := d }
        { st with cur := some c', jbuf := [] }
      else st
    | none =>
      let c' : V3ItemAcc :=
        { (v3Fresh pendingId) with ja := List.intercalate [' '] st.jbuf, question := d }
      { st with cur := some c', jbuf := [] }
  | .ID_ENGLISH nid txt =>
    match st.cur with
    | some c =>
      if c.id = nid then
        { items := st.items, cur := some ({ c with en_full := txt }), jbuf := [] }
      else if c.id = pendingId then
        { items := st.items, cur := some ({ c with id := nid, en_full := txt }),
          jbuf := [] }
      else
        { items := st.items ++ [c], cur := some ({ (v3Fresh nid) with en_full := txt }),
          jbuf := [] }
    | none =>
      { items := st.items, cur := some ({ (v3Fresh nid) with en_full := txt }),
        jbuf := [] }
  | .ENGLISH_TEXT d =>
    match st.cur with
    | some c =>
      if c.en_full ≠ [] then
        { st with cur := some ({ c with expl := c.expl ++ [d] }) }
      else st
    | none => st

/-- The block list produced by the main loop of parse_lines_v3 (before
post-processing): loop over all lines, then seal the open item. -/
def parse_lines_v3_blocks (lines : List (List Char)) : List V3ItemAcc :=
  let st := lines.foldl v3Step { items := [], cur := none, jbuf := [] }
  st.items ++ (st.cur.map (fun c => [c])).getD []

/-- A docx text run as consumed by extract_items_from_docx in
generate_and_deploy_v6.py: its text and its font color (none when the
font color or its rgb value is unset). -/
structure DocxRun where
  text : List Char
  rgb : Option (Nat × Nat × Nat)
deriving DecidableEq, Repr

/-- The character class of re.match(r'^[ \t\n➡・]+$', r_text). -/
def runFilterChar (c : Char) : Bool :=
  c == ' ' || c == '\t' || c == '\n' || c == '➡' || c == '・'

/-- RGBColor(255, 255, 255). -/
def whiteRGB : Nat × Nat × Nat := (255, 255, 255)

/-- RGBColor(0, 0, 0). -/
def blackRGB : Nat × Nat × Nat := (0, 0, 0)

/-- The is_colored test of extract_items_from_docx
(generate_and_deploy_v6.py lines 154-158): font color set, different
from white and black, and the run text not matching
^[ \t\n➡・]+$. -/
def runIsColored (r : DocxRun) : Bool :=
  match r.rgb with
  | some v =>
    decide (v ≠ whiteRGB) && decide (v ≠ blackRGB) &&
    !(!r.text.isEmpty && r.text.all runFilterChar)
  | none => false

/-- Accumulator of the run loop of extract_items_from_docx. -/
structure V6RunAcc where
  hasValidColor : Bool
  coloredSegments : List (List Char)
  reconstructed : List Char
deriving DecidableEq, Repr

/-- One iteration of the run loop of extract_items_from_docx
(generate_and_deploy_v6.py lines 147-165): empty runs are skipped,
colored runs contribute a stripped segment and a brace-wrapped copy,
all other runs contribute their text unchanged. -/
def v6ProcessRun (acc : V6RunAcc) (r : DocxRun) : V6RunAcc :=
  if r.text.isEmpty then acc
  else if runIsColored r then
    { hasValidColor := true,
      coloredSegments := acc.coloredSegments ++ [pyStrip r.text],
      reconstructed := acc.reconstructed ++ wrapBr r.text }
  else { acc with reconstructed := acc.reconstructed ++ r.text }

/-- The run loop of extract_items_from_docx over one paragraph. -/
def v6ProcessRuns (runs : List DocxRun) : V6RunAcc :=
  runs.foldl v6ProcessRun
    { hasValidColor := false, coloredSegments := [], reconstructed := [] }

/-- The contribution condition claimed by C10, phrased on one run:
non-empty text, font color set and different from both white and
black, and the text not composed solely of filter characters. -/
def v6Contributes (r : DocxRun) : Bool :=
  !r.text.isEmpty && runIsColored r

/-- Well-formed identifier: digits with an optional dash and digit
sub-index, the form every block identifier of the sources has. -/
def wfId (s : List Char) : Bool := idFull s

/-- Spec-side (base, sub-index) reading of an identifier, per claim C5. -/
def parseBaseSub (s : List Char) : Nat × Option Nat :=
  let d1 := s.takeWhile Char.isDigit
  match s.drop d1.length with
  | '-' :: r => (digitsToNat d1, some (digitsToNat (r.takeWhile Char.isDigit)))
  | _ => (digitsToNat d1, none)

/-- Spec-side identifier ordering of claim C5: numeric on the base,
absent sub-index before present sub-index, then numeric on the
sub-index. -/
def specIdLe (a b : List Char) : Prop :=
  (parseBaseSub a).1 < (parseBaseSub b).1 ∨
  ((parseBaseSub a).1 = (parseBaseSub b).1 ∧
    ((parseBaseSub a).2 = none ∨
     (∃ x y, (parseBaseSub a).2 = some x ∧ (parseBaseSub b).2 = some y ∧ x ≤ y)))

/-- The disjunction of every confident-category guard of classify_line
(v3), on the stripped line: empty, the garbage filters, the identifier
forms, the identifier-plus-text forms that match, and the
empty-parenthesis question test.  A line on which this is false falls
through to the native-text/latin-text fallback branch. -/
def v3ConfidentMatch (line : List Char) : Bool :=
  line.isEmpty || tipPre.isPrefixOf line || fCodePre line ||
  wordsToUse.isPrefixOf line || line == kihon || chapterPre line ||
  idFull line || negIdFull line ||
  (match v3IdPair line with
   | some (_, ws, rem) =>
     (match v3G2NonLatin ws rem with
      | some g2 => is_japanese_v3 g2
      | none => false) ||
     (match rem with
      | c :: _ => isLatinLetter c
      | [] => false)
   | none => false) ||
  ((line.contains '(' || line.contains '（') && hasEmptyParens line)

/-- The cleaned output record appended by the post-processing of
parse_lines_v3 (generate_and_deploy_v3.py lines 318-330). -/
structure V3Out where
  id : List Char
  ja : List Char
  en : List Char
  answer : List Char
  explanation : List Char
deriving DecidableEq, Repr

/-- Post-processing of one accumulated v3 item
(generate_and_deploy_v3.py lines 296-330): items with an empty or
provisional identifier or an empty filled sentence are skipped;
otherwise the answer is computed by v3's find_answer_part — textually
identical to v4's, so the same embedding is used — taking the sentinel
when the question is empty; the wrap happens only for a non-empty
answer occurring in the filled sentence, and the fallback branch
leaves the answer field unset so that it defaults to the sentinel. -/
def v3PostItem (item : V3ItemAcc) : Option V3Out :=
  if item.id = [] ∨ item.id = pendingId then none
  else if item.en_full = [] then none
  else
    let f := item.en_full
    let ans : Option (List Char) :=
      if item.question = [] then some sentinel
      else find_answer_part_v4 item.question f
    let expl := pyStrip (List.intercalate ['\n'] item.expl)
    match ans with
    | some a =>
      if a ≠ [] ∧ isSubstring f a then
        some { id := item.id, ja := item.ja, en := pyReplace f a (wrapBr a),
               answer := a, explanation := expl }
      else
        some { id := item.id, ja := item.ja, en := f, answer := sentinel,
               explanation := expl }
    | none =>
      some { id := item.id, ja := item.ja, en := f, answer := sentinel,
             explanation := expl }

/-- parse_lines_v3 of generate_and_deploy_v3.py (lines 138-332): the
block-collection loop followed by the validating post-process. -/
def parse_lines_v3 (lines : List (List Char)) : List V3Out :=
  (parse_lines_v3_blocks lines).filterMap v3PostItem

/-- Python re.sub with pattern ^0? plus the escaped block identifier
plus \s* and empty replacement: the anchored identifier removal of
extract_items_from_docx (generate_and_deploy_v6.py lines 117 and 168).
The optional leading zero is tried greedily first; at most one
substitution happens because of the anchor. -/
def stripIdPre (bid s : List Char) : List Char :=
  match s with
  | '0' :: r =>
    if bid.isPrefixOf r then (r.drop bid.length).dropWhile isWS
    else if bid.isPrefixOf s then (s.drop bid.length).dropWhile isWS
    else s
  | _ => if bid.isPrefixOf s then (s.drop bid.length).dropWhile isWS else s

/-- Python re.sub with pattern F\s*\d+\s* and empty replacement: the
F-code removal of extract_items_from_docx (generate_and_deploy_v6.py
lines 141 and 170), scanning left to right with greedy whitespace and
digit runs; the fuel argument is instantiated with the string
length. -/
def subFCodes : Nat → List Char → List Char
  | 0, s => s
  | fuel + 1, s =>
    match s with
    | [] => []
    | c :: rest =>
      if c = 'F' then
        let r1 := rest.dropWhile isWS
        let ds := r1.takeWhile Char.isDigit
        if ds ≠ [] then subFCodes fuel ((r1.drop ds.length).dropWhile isWS)
        else c :: subFCodes fuel rest
      else c :: subFCodes fuel rest

/-- Python re.sub with pattern \{\s*\} and empty replacement: the
empty-brace-pair removal of extract_items_from_docx
(generate_and_deploy_v6.py line 204).  A match at a position is an
opening brace whose maximal following whitespace run ends at a closing
brace; the fuel argument is instantiated with the string length. -/
def subEmptyBraces : Nat → List Char → List Char
  | 0, s => s
  | fuel + 1, s =>
    match s with
    | [] => []
    | c :: rest =>
      if c = '{' ∧ (rest.dropWhile isWS).head? = some '}' then
        subEmptyBraces fuel ((rest.dropWhile isWS).drop 1)
      else c :: subEmptyBraces fuel rest

/-- The three per-sentence cleanups applied by extract_items_from_docx
to a reconstructed paragraph (generate_and_deploy_v6.py lines
168-170): identifier removal, checkbox removal and F-code removal,
each followed by a strip. -/
def v6ReconClean (bid recon : List Char) : List Char :=
  let r1 := pyStrip (stripIdPre bid recon)
  let r2 := pyStrip (r1.filter (fun c => !(c == '□')))
  pyStrip (subFCodes r2.length r2)

/-- Assembly of the en and answer fields of a v6 item from the
collected answer-sentence parts and raw colored words
(generate_and_deploy_v6.py lines 201-208): space join (with the
sentinel when no parts were collected), empty-brace-pair removal and
whitespace collapse for the sentence; comma join of the non-empty
words for the answer. -/
def v6Assemble (ansParts rawWords : List (List Char)) : List Char × List Char :=
  let en0 := if ansParts.isEmpty then sentinel else List.intercalate [' '] ansParts
  let en1 := subEmptyBraces en0.length en0
  (normWS en1, List.intercalate [',', ' '] (rawWords.filter (fun w => !w.isEmpty)))

/-- The en and answer fields of the v6 item built from a block whose
single English paragraph carries no blank markers: the paragraph's
runs go through the run loop, the reconstruction is cleaned, and when
a validly colored run was seen the paragraph contributes its
reconstruction and its colored segments to the assembly
(extract_items_from_docx, generate_and_deploy_v6.py lines 147-184 and
200-217, instantiated at one paragraph). -/
def v6ParagraphEnAnswer (bid : List Char) (runs : List DocxRun) :
    List Char × List Char :=
  let acc := v6ProcessRuns runs
  let recon := v6ReconClean bid acc.reconstructed
  if acc.hasValidColor then v6Assemble [recon] acc.coloredSegments
  else v6Assemble [] []

/-- Concrete docx runs of a paragraph whose highlighted answer
consists of two separate colored spans. -/
def c2Runs : List DocxRun :=
  [{ text := "I ".data, rgb := none },
   { text := "have".data, rgb := some (255, 0, 0) },
   { text := " never ".data, rgb := none },
   { text := "seen".data, rgb := some (255, 0, 0) },
   { text := " it".data, rgb := none }]

/-- Invariant of the v5 block-collection pass: every collected block
identifier is well-formed. -/
def v5P1Wf (st : V5Phase1) : Prop :=
  (∀ b ∈ st.blocks, wfId b.id = true) ∧ (∀ b, st.cur = some b → wfId b.id = true)

/-- Invariant of the v5 dictionaries: every key is a well-formed
identifier. -/
def v5DictsWf (d : V5Dicts) : Prop :=
  (∀ p ∈ d.answers, wfId p.1 = true) ∧ (∀ p ∈ d.questions, wfId p.1 = true)

/-- A closing parenthesis occurs in q iff lastParenIndex finds one. -/
theorem lastParenIndex_isSome_iff (q : List Char) :
    (lastParenIndex q).isSome = q.any isClosePar := by
  unfold lastParenIndex
  induction q using List.reverseRecOn with
  | nil => rfl
  | append_singleton xs x ih =>
    rw [List.enum_append]
    simp only [List.foldl_append, List.any_append]
    by_cases hx : isClosePar x
    · simp [List.enumFrom, hx]
    · simp [List.enumFrom, hx, ih]

/-- Claim C1, v4 side: whenever the normalized question contains a
blank-opening delimiter, find_answer_part of v4 returns exactly the
Priority-2 answer described by the spec. -/
theorem find_v4_eq_priority2 (question filled : List Char)
    (h : (normWS question).any isOpenPar) :
    find_answer_part_v4 question filled = some (priority2Answer question filled) := by
  have h1 : ((normWS question).findIdx? isOpenPar).isSome := by
    rw [List.findIdx?_isSome]; exact h
  rcases Option.isSome_iff_exists.mp h1 with ⟨s, hs⟩
  by_cases hc : (normWS question).any isClosePar
  · unfold find_answer_part_v4 priority2Answer
    simp only [hs, hc, if_true, Option.getD_some]
  · have hnone : lastParenIndex (normWS question) = none := by
      have h2 : (lastParenIndex (normWS question)).isSome = false := by
        rw [lastParenIndex_isSome_iff]
        exact Bool.eq_false_iff.mpr (fun hx => hc hx)
      exact Option.not_isSome_iff_eq_none.mp (by simp [h2])
    unfold find_answer_part_v4 priority2Answer
    simp only [hs, hc, hnone, Option.getD_some, if_false, Bool.false_eq_true]

/-- wrapBr never yields the empty string. -/
theorem wrapBr_ne_nil (a : List Char) : wrapBr a ≠ [] := by
  simp [wrapBr]

/-- replaceGo on the empty string is the empty string. -/
theorem replaceGo_nil (pat rep : List Char) (m : Nat) :
    replaceGo pat rep m [] = [] := by
  cases m with
  | zero => rfl
  | succ k =>
    unfold replaceGo
    by_cases h : pat ≠ [] ∧ pat.isPrefixOf ([] : List Char)
    · rcases h with ⟨h1, h2⟩
      cases pat with
      | nil => exact absurd rfl h1
      | cons a as => simp [List.isPrefixOf] at h2
    · rw [if_neg h]

/-- The scanner ignores its fuel as long as it covers the string. -/
theorem replaceGo_fuel (pat rep : List Char) :
    ∀ (n m : Nat) (s : List Char), s.length ≤ n → s.length ≤ m →
      replaceGo pat rep n s = replaceGo pat rep m s := by
  intro n
  induction n with
  | zero =>
    intro m s hn _
    have hs : s = [] := List.length_eq_zero.mp (Nat.le_zero.mp hn)
    subst hs
    rw [replaceGo_nil, replaceGo_nil]
  | succ k ih =>
    intro m s hn hm
    cases s with
    | nil => rw [replaceGo_nil, replaceGo_nil]
    | cons c rest =>
      cases m with
      | zero => simp at hm
      | succ j =>
        unfold replaceGo
        by_cases h : pat ≠ [] ∧ pat.isPrefixOf (c :: rest)
        · rw [if_pos h, if_pos h]
          congr 1
          have hp : 1 ≤ pat.length :=
            Nat.pos_of_ne_zero (fun h0 => h.1 (List.length_eq_zero.mp h0))
          have hle : pat.length ≤ (c :: rest).length :=
            (List.isPrefixOf_iff_prefix.mp h.2).length_le
          apply ih
          · simp only [List.length_drop]
            simp only [List.length_cons] at hn ⊢
            omega
          · simp only [List.length_drop]
            simp only [List.length_cons] at hm ⊢
            omega
        · rw [if_neg h, if_neg h]
          show c :: replaceGo pat rep k rest = c :: replaceGo pat rep j rest
          congr 1
          apply ih
          · simp only [List.length_cons] at hn; omega
          · simp only [List.length_cons] at hm; omega

/-- pyReplace on the empty string (non-empty pattern). -/
theorem pyReplace_nil (pat rep : List Char) (h : pat ≠ []) :
    pyReplace [] pat rep = [] := by
  unfold pyReplace
  rw [if_neg h]
  rfl

/-- One step of the scanner at a pattern occurrence. -/
theorem replaceGo_succ_pos (pat rep s : List Char) (k : Nat) (hp : pat ≠ [])
    (hpre : pat.isPrefixOf s) :
    replaceGo pat rep (k + 1) s = rep ++ replaceGo pat rep k (s.drop pat.length) := by
  conv_lhs => unfold replaceGo
  rw [if_pos ⟨hp, hpre⟩]

/-- One step of the scanner at a non-occurrence. -/
theorem replaceGo_succ_neg (pat rep : List Char) (c : Char) (rest : List Char)
    (k : Nat) (h : ¬ pat.isPrefixOf (c :: rest)) :
    replaceGo pat rep (k + 1) (c :: rest) = c :: replaceGo pat rep k rest := by
  conv_lhs => unfold replaceGo
  rw [if_neg (fun hh => h hh.2)]

/-- Unfolding of pyReplace at a pattern occurrence. -/
theorem pyReplace_pos (s pat rep : List Char) (hp : pat ≠ [])
    (hpre : pat.isPrefixOf s) :
    pyReplace s pat rep = rep ++ pyReplace (s.drop pat.length) pat rep := by
  unfold pyReplace
  rw [if_neg hp, if_neg hp]
  have hl : 1 ≤ pat.length :=
    Nat.pos_of_ne_zero (fun h0 => hp (List.length_eq_zero.mp h0))
  have hle : pat.length ≤ s.length :=
    (List.isPrefixOf_iff_prefix.mp hpre).length_le
  obtain ⟨k, hk⟩ : ∃ k, s.length = k + 1 := ⟨s.length - 1, by omega⟩
  rw [hk, replaceGo_succ_pos pat rep s k hp hpre]
  congr 1
  apply replaceGo_fuel
  · simp only [List.length_drop]; omega
  · simp only [List.length_drop]; omega

/-- Unfolding of pyReplace at a non-occurrence. -/
theorem pyReplace_neg (c : Char) (s pat rep : List Char) (hp : pat ≠ [])
    (h : ¬ pat.isPrefixOf (c :: s)) :
    pyReplace (c :: s) pat rep = c :: pyReplace s pat rep := by
  unfold pyReplace
  rw [if_neg hp, if_neg hp]
  show replaceGo pat rep (s.length + 1) (c :: s) = _
  rw [replaceGo_succ_neg pat rep c s s.length h]

/-- pyReplace of a non-empty string by a non-empty replacement is
non-empty. -/
theorem pyReplace_ne_nil (s pat rep : List Char) (hs : s ≠ []) (hp : pat ≠ [])
    (hr : rep ≠ []) : pyReplace s pat rep ≠ [] := by
  by_cases hpre : pat.isPrefixOf s
  · rw [pyReplace_pos s pat rep hp hpre]
    simp [hr]
  · cases s with
    | nil => exact absurd rfl hs
    | cons c rest =>
      rw [pyReplace_neg c rest pat rep hp hpre]
      simp

/-- Round trip of the brace wrapping: replacing every brace-wrapped
copy of a short answer back by the answer restores the original
sentence, provided the sentence contains no opening brace. -/
theorem wrap_roundtrip_aux (a : List Char) (ha : a ≠ []) :
    ∀ (n : Nat) (s : List Char), s.length ≤ n → '{' ∉ s →
      pyReplace (pyReplace s a (wrapBr a)) (wrapBr a) a = s := by
  intro n
  induction n with
  | zero =>
    intro s hn _
    have hs : s = [] := List.length_eq_zero.mp (Nat.le_zero.mp hn)
    subst hs
    rw [pyReplace_nil _ _ ha, pyReplace_nil _ _ (wrapBr_ne_nil a)]
  | succ k ih =>
    intro s hn hb
    by_cases hpre : a.isPrefixOf s
    · rw [pyReplace_pos s a (wrapBr a) ha hpre]
      have hw : (wrapBr a).isPrefixOf
          (wrapBr a ++ pyReplace (s.drop a.length) a (wrapBr a)) :=
        List.isPrefixOf_iff_prefix.mpr (List.prefix_append _ _)
      rw [pyReplace_pos _ _ _ (wrapBr_ne_nil a) hw, List.drop_left]
      have hl : 1 ≤ a.length :=
        Nat.pos_of_ne_zero (fun h0 => ha (List.length_eq_zero.mp h0))
      have hle : a.length ≤ s.length :=
        (List.isPrefixOf_iff_prefix.mp hpre).length_le
      rw [ih (s.drop a.length)
            (by simp only [List.length_drop]; omega)
            (fun hmem => hb (List.mem_of_mem_drop hmem))]
      obtain ⟨t, ht⟩ := List.isPrefixOf_iff_prefix.mp hpre
      rw [← ht, List.drop_left]
    · cases s with
      | nil => rw [pyReplace_nil _ _ ha, pyReplace_nil _ _ (wrapBr_ne_nil a)]
      | cons c rest =>
        rw [pyReplace_neg c rest a (wrapBr a) ha hpre]
        have hc : c ≠ '{' := fun hcc => hb (hcc ▸ List.mem_cons_self c rest)
        have hnw : ¬ (wrapBr a).isPrefixOf (c :: pyReplace rest a (wrapBr a)) := by
          intro hpw
          have h2 := List.isPrefixOf_iff_prefix.mp hpw
          simp only [wrapBr] at h2
          rcases List.cons_prefix_cons.mp h2 with ⟨h3, _⟩
          exact hc h3.symm
        rw [pyReplace_neg _ _ _ _ (wrapBr_ne_nil a) hnw]
        congr 1
        apply ih rest (by simp only [List.length_cons] at hn; omega)
          (fun hmem => hb (List.mem_cons_of_mem c hmem))

/-- C1 (amended): after whitespace normalization, v4's Priority-2
extraction takes the anchor before the first blank-opening delimiter
and after the last blank-closing delimiter, anchors them at the end of
the first occurrence and the start of the last occurrence in the
filled sentence (defaulting to the string ends), and returns the slice
trimmed; on the train example it extracts "arrived at Tokyo Station".
The v5 variant instead takes its right anchor from the first closing
delimiter (and deletes parenthesis characters), so on the same example
it returns "arrived at Tokyo Station 20 minutes late.". -/
theorem C1_priority2_extraction :
    (∀ q f : List Char, (normWS q).any isOpenPar →
        find_answer_part_v4 q f = some (priority2Answer q f))
    ∧ find_answer_part_v4 "The train ( ) ( ) ( ) 20 minutes late.".data
        "The train arrived at Tokyo Station 20 minutes late.".data =
        some "arrived at Tokyo Station".data
    ∧ find_answer_part_v5 "The train ( ) ( ) ( ) 20 minutes late.".data
        "The train arrived at Tokyo Station 20 minutes late.".data =
        some "arrived at Tokyo Station 20 minutes late.".data :=
  ⟨find_v4_eq_priority2, by decide, by decide⟩

/-- C1 counterexample: the claim prescribes "arrived at Tokyo Station"
for the train example, but the cited v5 find_answer_part returns a
different answer (the right anchor is taken from the FIRST closing
delimiter, is absent from the filled sentence, and defaults to the
end of string). -/
theorem C1_counterexample :
    find_answer_part_v5 "The train ( ) ( ) ( ) 20 minutes late.".data
        "The train arrived at Tokyo Station 20 minutes late.".data ≠
      some "arrived at Tokyo Station".data := by decide

/-- C1 witness: the v4 equation of C1_priority2_extraction applied at
a concrete question with a blank marker. -/
theorem C1_witness :
    find_answer_part_v4 "a ( ) c".data "a b c".data =
      some (priority2Answer "a ( ) c".data "a b c".data) :=
  C1_priority2_extraction.1 _ _ (by decide)

/-- C2 (amended): in v4's save_current, whenever the answer is not the
sentinel and the filled sentence contains no opening brace, replacing
every placeholder-wrapped answer span by the plain answer reproduces
the filled sentence exactly.  In the v6 docx extractor the answer
field may join several separately wrapped highlighted spans; there the
round trip fails even for brace-free sentences: on the two-span
paragraph the wrapped answer never occurs in the en field, so the
replacement leaves the en field unchanged, and it differs from the
plain sentence. -/
theorem C2_roundtrip :
    (∀ q f : List Char, '{' ∉ f → (v4AnswerEn q f).answer ≠ sentinel →
      pyReplace (v4AnswerEn q f).en (wrapBr (v4AnswerEn q f).answer)
        (v4AnswerEn q f).answer = f)
    ∧ v6ParagraphEnAnswer "15".data c2Runs =
        ("I {have} never {seen} it".data, "have, seen".data)
    ∧ pyReplace "I {have} never {seen} it".data (wrapBr "have, seen".data)
        "have, seen".data = "I {have} never {seen} it".data
    ∧ "I {have} never {seen} it".data ≠ "I have never seen it".data := by
  refine ⟨?_, by decide, by decide, by decide⟩
  intro q f hb h
  revert h
  unfold v4AnswerEn
  rcases find_answer_part_v4 q f with _ | a
  · intro h
    exact absurd rfl h
  · dsimp only
    by_cases hc : a ≠ [] ∧ isSubstring f a
    · rw [if_pos hc]
      intro _
      exact wrap_roundtrip_aux a hc.1 f.length f le_rfl hb
    · rw [if_neg hc]
      intro h
      exact absurd rfl h

/-- C2 counterexample, refuting the unconditional round trip for both
cited extractors.  In v4, on question "\x7b\x7d (" and filled sentence
"\x7b\x7d\x7d\x7b" save_current computes a non-sentinel answer, yet
replacing the placeholder-wrapped span back does not reproduce the
filled sentence (str.replace finds a spurious wrapped occurrence
first).  In v6, the two-span paragraph yields the non-sentinel answer
"have, seen" for the brace-free plain sentence "I have never seen it",
and replacing the wrapped answer in the item's en field cannot
reproduce that sentence. -/
theorem C2_counterexample :
    ((v4AnswerEn "\x7b\x7d (".data "\x7b\x7d\x7d\x7b".data).answer ≠ sentinel ∧
     pyReplace (v4AnswerEn "\x7b\x7d (".data "\x7b\x7d\x7d\x7b".data).en
       (wrapBr (v4AnswerEn "\x7b\x7d (".data "\x7b\x7d\x7d\x7b".data).answer)
       (v4AnswerEn "\x7b\x7d (".data "\x7b\x7d\x7d\x7b".data).answer ≠
       "\x7b\x7d\x7d\x7b".data) ∧
    (v6ParagraphEnAnswer "15".data c2Runs).2 ≠ sentinel ∧
    '{' ∉ "I have never seen it".data ∧
    pyReplace (v6ParagraphEnAnswer "15".data c2Runs).1
      (wrapBr (v6ParagraphEnAnswer "15".data c2Runs).2)
      (v6ParagraphEnAnswer "15".data c2Runs).2 ≠
      "I have never seen it".data :=
  ⟨⟨by decide, by decide⟩, by decide, by decide, by decide⟩

/-- C2 witness: the v4 round trip at a concrete brace-free item. -/
theorem C2_witness :
    pyReplace (v4AnswerEn "a ( ) c".data "a b c".data).en
      (wrapBr (v4AnswerEn "a ( ) c".data "a b c".data).answer)
      (v4AnswerEn "a ( ) c".data "a b c".data).answer = "a b c".data :=
  C2_roundtrip.1 _ _ (by decide) (by decide)

/-- C3 (amended): when the normalized question has no blank marker and
at least one of the common prefix length P and common suffix length S
is positive, under the constraint P + S < length of the normalized
filled sentence the v5 fallback returns the filled sentence sliced
[P, length - S) trimmed; the woman/flowers example extracts
"is watering". -/
theorem C3_priority3_fallback :
    (∀ q f : List Char,
        (normWS q).findIdx? isOpenPar = none →
        (normWS q).findIdx? (fun c => c == '_') = none →
        (0 < commonPrefixLen (normWS q) (normWS f) ∨
         0 < commonPrefixLen (normWS q).reverse (normWS f).reverse) →
        commonPrefixLen (normWS q) (normWS f) +
          commonPrefixLen (normWS q).reverse (normWS f).reverse <
          (normWS f).length →
        find_answer_part_v5 q f = some (priority3Answer q f))
    ∧ find_answer_part_v5 "The woman some flowers.".data
        "The woman is watering some flowers.".data = some "is watering".data := by
  constructor
  · intro q f h1 h2 h3 h4
    unfold find_answer_part_v5 priority3Answer
    simp only [h1, h2]
    have hb1 : (decide (commonPrefixLen (normWS q) (normWS f) > 0) ||
        decide (commonPrefixLen (normWS q).reverse (normWS f).reverse > 0)) = true := by
      rcases h3 with h | h <;> simp [h]
    rw [if_pos hb1, if_pos h4]
  · decide

/-- C3 counterexample: for question "xyz" and filled sentence "abc"
the constraint P + S < length holds (P = S = 0) and the claim
prescribes the trimmed slice "abc", but the v5 fallback returns no
answer at all: the source additionally requires P > 0 or S > 0. -/
theorem C3_counterexample :
    find_answer_part_v5 "xyz".data "abc".data = none ∧
    priority3Answer "xyz".data "abc".data = "abc".data ∧
    commonPrefixLen (normWS "xyz".data) (normWS "abc".data) +
      commonPrefixLen (normWS "xyz".data).reverse (normWS "abc".data).reverse <
      (normWS "abc".data).length :=
  ⟨by decide, by decide, by decide⟩

/-- C3 witness: the fallback equation applied at the woman/flowers
example. -/
theorem C3_witness :
    find_answer_part_v5 "The woman some flowers.".data
      "The woman is watering some flowers.".data =
      some (priority3Answer "The woman some flowers.".data
        "The woman is watering some flowers.".data) :=
  C3_priority3_fallback.1 _ _ (by decide) (by decide) (by decide) (by decide)

/-- C6 (amended): when the located answer is not the sentinel, the
output sentence is the filled sentence with EVERY occurrence of the
answer substring replaced by its placeholder-wrapped copy (Python
str.replace replaces all occurrences, not only the first); in the
example both occurrences of "to" are wrapped. -/
theorem C6_wrap_occurrences :
    (∀ q f : List Char, (v4AnswerEn q f).answer ≠ sentinel →
        (v4AnswerEn q f).en =
          pyReplace f (v4AnswerEn q f).answer (wrapBr (v4AnswerEn q f).answer))
    ∧ (v4AnswerEn "I go ( ) school to learn".data "I go to school to learn".data).en =
        "I go {to} school {to} learn".data := by
  constructor
  · intro q f h
    revert h
    unfold v4AnswerEn
    rcases find_answer_part_v4 q f with _ | a
    · intro h
      exact absurd rfl h
    · dsimp only
      by_cases hc : a ≠ [] ∧ isSubstring f a
      · rw [if_pos hc]
        intro _
        rfl
      · rw [if_neg hc]
        intro h
        exact absurd rfl h
  · decide

/-- C6 counterexample: with answer "to" occurring twice in the filled
sentence, the output differs from the claim's only-first-occurrence
wrapping: the second occurrence is wrapped as well. -/
theorem C6_counterexample :
    (v4AnswerEn "I go ( ) school to learn".data
      "I go to school to learn".data).answer = "to".data ∧
    (v4AnswerEn "I go ( ) school to learn".data
      "I go to school to learn".data).en ≠ "I go {to} school to learn".data :=
  ⟨by decide, by decide⟩

/-- C6 witness: the replace-all equation at the concrete example. -/
theorem C6_witness :
    (v4AnswerEn "I go ( ) school to learn".data
      "I go to school to learn".data).en =
      pyReplace "I go to school to learn".data
        (v4AnswerEn "I go ( ) school to learn".data
          "I go to school to learn".data).answer
        (wrapBr (v4AnswerEn "I go ( ) school to learn".data
          "I go to school to learn".data).answer) :=
  C6_wrap_occurrences.1 _ _ (by decide)

/-- C7 (amended): on the five-line look-back input, v4 extraction
produces exactly one item — identifier 15, the pre-header
native-script line attached retroactively as its native text, and the
filled sentence wrapped around the answer "to be watered" — and
unwrapping the placeholder restores the filled sentence as given; the
cited v3 parser, however, produces no item at all on this input,
because its bare-header layout never sets the filled sentence and its
ID_ONLY transition discards the look-back buffer without attaching
it. -/
theorem C7_lookback_attachment :
    parse_chapter_text_v4
      ["花は毎日水をやる必要がある。".data, "15".data,
       "Flowers need ( ) ( ) every day.".data, "15".data,
       "Flowers need to be watered every day.".data] =
      [{ id := "15".data, ja := "花は毎日水をやる必要がある。".data,
         en := "Flowers need {to be watered} every day.".data,
         answer := "to be watered".data, explanation := [] }] ∧
    pyReplace "Flowers need {to be watered} every day.".data
      (wrapBr "to be watered".data) "to be watered".data =
      "Flowers need to be watered every day.".data ∧
    parse_lines_v3
      ["花は毎日水をやる必要がある。".data, "15".data,
       "Flowers need ( ) ( ) every day.".data, "15".data,
       "Flowers need to be watered every day.".data] = [] :=
  ⟨by decide, by decide, by decide⟩

/-- C7 counterexample: the claim also cites parse_lines_v3, but on the
claimed five-line input the v3 extraction emits no item whatsoever —
its two collected identifier-15 blocks both lack a filled sentence and
are discarded by the post-filter — so in particular no item with
identifier 15 and the claimed fields exists. -/
theorem C7_counterexample :
    parse_lines_v3
      ["花は毎日水をやる必要がある。".data, "15".data,
       "Flowers need ( ) ( ) every day.".data, "15".data,
       "Flowers need to be watered every day.".data] = ([] : List V3Out) := by
  decide

/-- The transformed sentence of save_current is never empty when the
filled sentence is non-empty. -/
theorem v4AnswerEn_en_ne_nil (q f : List Char) (hf : f ≠ []) :
    (v4AnswerEn q f).en ≠ [] := by
  unfold v4AnswerEn
  rcases find_answer_part_v4 q f with _ | a
  · exact hf
  · dsimp only
    by_cases hc : a ≠ [] ∧ isSubstring f a
    · rw [if_pos hc]
      exact pyReplace_ne_nil f a (wrapBr a) hf hc.1 (wrapBr_ne_nil a)
    · rw [if_neg hc]
      exact hf

/-- Every item save_current emits has a non-empty identifier and a
non-empty transformed sentence. -/
theorem v4Save_good (c : V4Acc) (buf : List (List Char)) (it : V4Out)
    (h : v4Save c buf = some it) : it.id ≠ [] ∧ it.en ≠ [] := by
  unfold v4Save at h
  rcases hef : c.en_full with _ | f
  · rw [hef] at h
    exact absurd h (by simp)
  · rw [hef] at h
    dsimp only at h
    by_cases hc : c.id ≠ [] ∧ f ≠ []
    · rw [if_pos hc] at h
      have h2 := Option.some.inj h
      constructor
      · rw [← h2]
        exact hc.1
      · rw [← h2]
        exact v4AnswerEn_en_ne_nil c.question f hc.2
    · rw [if_neg hc] at h
      exact absurd h (by simp)

/-- The non-identifier state dispatch of the v4 parser never emits
items. -/
theorem v4NonId_items (st : V4State) (line : List Char) :
    (v4NonId st line).items = st.items := by
  obtain ⟨items, cur, buf, mode⟩ := st
  unfold v4NonId
  cases cur with
  | none => rfl
  | some c =>
    cases mode <;> dsimp only <;> (repeat' split) <;> rfl

/-- Every item of the list after the new-item transition is an old
item or an item emitted by save_current on the sealed accumulator. -/
theorem v4NewItem_mem (st : V4State) (mid : List Char) (it : V4Out)
    (h : it ∈ (v4NewItem st mid).items) :
    it ∈ st.items ∨ ∃ c, st.cur = some c ∧ v4Save c st.buf = some it := by
  unfold v4NewItem at h
  rcases hcur : st.cur with _ | c
  · rw [hcur] at h
    dsimp only at h
    exact Or.inl h
  · rw [hcur] at h
    dsimp only at h
    rcases List.mem_append.mp h with h1 | h1
    · exact Or.inl h1
    · right
      refine ⟨c, rfl, ?_⟩
      rcases hs : v4Save c st.buf with _ | it2
      · rw [hs] at h1
        simp at h1
      · rw [hs] at h1
        simp at h1
        subst h1
        rfl

/-- One v4 parser step preserves the goodness of all emitted items. -/
theorem v4Step_good (st : V4State) (l : List Char)
    (h : ∀ it ∈ st.items, it.id ≠ [] ∧ it.en ≠ []) :
    ∀ it ∈ (v4Step st l).items, it.id ≠ [] ∧ it.en ≠ [] := by
  intro it hit
  have hnew : ∀ mid, it ∈ (v4NewItem st mid).items → it.id ≠ [] ∧ it.en ≠ [] := by
    intro mid hm
    rcases v4NewItem_mem st mid it hm with h1 | ⟨c, _, hs⟩
    · exact h it h1
    · exact v4Save_good c st.buf it hs
  unfold v4Step at hit
  dsimp only at hit
  split at hit
  · exact h it hit
  · split at hit
    · split at hit
      · split at hit
        · split at hit
          · split at hit
            · exact h it hit
            · exact h it hit
          · exact hnew _ hit
        · exact hnew _ hit
      · rw [v4NonId_items] at hit
        exact h it hit
    · rw [v4NonId_items] at hit
      exact h it hit

/-- Goodness of emitted items is an invariant of the whole v4 line
loop. -/
theorem v4Fold_good (lines : List (List Char)) :
    ∀ st : V4State, (∀ it ∈ st.items, it.id ≠ [] ∧ it.en ≠ []) →
      ∀ it ∈ (lines.foldl v4Step st).items, it.id ≠ [] ∧ it.en ≠ [] := by
  induction lines with
  | nil =>
    intro st h
    exact h
  | cons l rest ih =>
    intro st h
    exact ih (v4Step st l) (v4Step_good st l h)

/-- save_current emits an item exactly when the sealed accumulator has
a non-empty identifier and a non-empty filled sentence. -/
theorem v4Save_isSome_iff (c : V4Acc) (buf : List (List Char)) :
    (∃ it, v4Save c buf = some it) ↔
      (c.id ≠ [] ∧ ∃ f, c.en_full = some f ∧ f ≠ []) := by
  unfold v4Save
  rcases hef : c.en_full with _ | f
  · simp
  · dsimp only
    by_cases hc : c.id ≠ [] ∧ f ≠ []
    · rw [if_pos hc]
      constructor
      · intro _
        exact ⟨hc.1, f, rfl, hc.2⟩
      · intro _
        exact ⟨_, rfl⟩
    · rw [if_neg hc]
      constructor
      · rintro ⟨it, hit⟩
        simp at hit
      · rintro ⟨hid, f2, hf2, hf2ne⟩
        exact absurd ⟨hid, by rw [Option.some.inj hf2]; exact hf2ne⟩ hc

/-- The item emitted by save_current carries the sealed accumulator's
identifier. -/
theorem v4Save_id (c : V4Acc) (buf : List (List Char)) (it : V4Out)
    (h : v4Save c buf = some it) : it.id = c.id := by
  unfold v4Save at h
  rcases hef : c.en_full with _ | f
  · rw [hef] at h
    exact absurd h (by simp)
  · rw [hef] at h
    dsimp only at h
    by_cases hc : c.id ≠ [] ∧ f ≠ []
    · rw [if_pos hc] at h
      rw [← Option.some.inj h]
    · rw [if_neg hc] at h
      exact absurd h (by simp)

/-- One v4 parser step only appends to the emitted-item list. -/
theorem v4Step_items_mono (st : V4State) (l : List Char) :
    ∃ tail, (v4Step st l).items = st.items ++ tail := by
  have hnew : ∀ mid, ∃ tail, (v4NewItem st mid).items = st.items ++ tail := by
    intro mid
    unfold v4NewItem
    rcases hcur : st.cur with _ | c
    · exact ⟨[], by simp⟩
    · exact ⟨(v4Save c st.buf).toList, rfl⟩
  unfold v4Step
  dsimp only
  split
  · exact ⟨[], by simp⟩
  · split
    · split
      · split
        · split
          · split
            · exact ⟨[], by simp⟩
            · exact ⟨[], by simp⟩
          · exact hnew _
        · exact hnew _
      · exact ⟨[], by rw [v4NonId_items]; simp⟩
    · exact ⟨[], by rw [v4NonId_items]; simp⟩

/-- The whole v4 line loop only appends to the emitted-item list, so
items emitted along the way persist to the final state. -/
theorem v4Fold_items_mono (lines : List (List Char)) :
    ∀ st : V4State, ∃ tail, (lines.foldl v4Step st).items = st.items ++ tail := by
  induction lines with
  | nil =>
    intro st
    exact ⟨[], by simp⟩
  | cons l rest ih =>
    intro st
    obtain ⟨t2, h2⟩ := ih (v4Step st l)
    obtain ⟨t1, h1⟩ := v4Step_items_mono st l
    exact ⟨t1 ++ t2, by rw [List.foldl_cons, h2, h1, List.append_assoc]⟩

/-- C4 (amended): in the v4 extractor the emission gateway
save_current produces an item if and only if the sealed block has a
non-empty identifier and a non-empty filled sentence; the emitted item
carries the block's identifier; every step of the line loop only
appends to the emitted list, so emitted items persist to the output;
every output item has a non-empty identifier and a non-empty
(transformed) filled-sentence field; and the 77 block with only
native-language content is dropped by v4.  The v5 extractor, exhibited
in the counterexample, instead emits such a block as a degraded
item. -/
theorem C4_drop_policy :
    (∀ (lines : List (List Char)), ∀ it ∈ parse_chapter_text_v4 lines,
        it.id ≠ [] ∧ it.en ≠ [])
    ∧ (∀ (c : V4Acc) (buf : List (List Char)),
        (∃ it, v4Save c buf = some it) ↔
          (c.id ≠ [] ∧ ∃ f, c.en_full = some f ∧ f ≠ []))
    ∧ (∀ (c : V4Acc) (buf : List (List Char)) (it : V4Out),
        v4Save c buf = some it → it.id = c.id)
    ∧ (∀ (lines : List (List Char)) (st : V4State),
        ∃ tail, (lines.foldl v4Step st).items = st.items ++ tail)
    ∧ parse_chapter_text_v4 ["77".data, "これは日本語だけの内容です。".data] = [] := by
  refine ⟨?_, v4Save_isSome_iff, v4Save_id, v4Fold_items_mono, by decide⟩
  · intro lines it hit
    unfold parse_chapter_text_v4 at hit
    dsimp only at hit
    have hinv := v4Fold_good lines { items := [], cur := none, buf := [], mode := .FIND_ID }
      (by intro it2 h2; simp at h2)
    rcases hcur : (lines.foldl v4Step
        { items := [], cur := none, buf := [], mode := .FIND_ID }).cur with _ | c
    · rw [hcur] at hit
      exact hinv it hit
    · rw [hcur] at hit
      rcases List.mem_append.mp hit with h1 | h1
      · exact hinv it h1
      · rcases hs : v4Save c (lines.foldl v4Step
            { items := [], cur := none, buf := [], mode := .FIND_ID }).buf with _ | it2
        · rw [hs] at h1
          simp at h1
        · rw [hs] at h1
          simp at h1
          rw [h1]
          exact v4Save_good c _ it2 hs

/-- C4 counterexample: the v5 extractor emits the identifier-77 block
that has only native-language content and no filled sentence — as an
item whose sentence field is the sentinel — contradicting the claimed
drop policy. -/
theorem C4_counterexample :
    (parse_chapter_text_v5 ["77".data, "これは日本語だけの内容です。".data]).map
      (fun i => i.id) = ["77".data] ∧
    (parse_chapter_text_v5 ["77".data, "これは日本語だけの内容です。".data]).map
      (fun i => i.en) = [sentinel] :=
  ⟨by decide, by decide⟩

/-- C4 witness: the v4 goodness invariant applied to the item produced
on the concrete five-line input of the look-back example. -/
theorem C4_witness :
    ({ id := "15".data, ja := "花は毎日水をやる必要がある。".data,
       en := "Flowers need {to be watered} every day.".data,
       answer := "to be watered".data, explanation := [] } : V4Out).id ≠ [] ∧
    ({ id := "15".data, ja := "花は毎日水をやる必要がある。".data,
       en := "Flowers need {to be watered} every day.".data,
       answer := "to be watered".data, explanation := [] } : V4Out).en ≠ [] :=
  C4_drop_policy.1
    ["花は毎日水をやる必要がある。".data, "15".data,
     "Flowers need ( ) ( ) every day.".data, "15".data,
     "Flowers need to be watered every day.".data] _ (by decide)

/-- A whitespace character is not a digit. -/
theorem isWS_not_digit (c : Char) (h : isWS c = true) : c.isDigit = false := by
  unfold isWS at h
  simp only [Bool.or_eq_true, beq_iff_eq] at h
  rcases h with (((((((h | h) | h) | h) | h) | h) | h) | h) <;> subst h <;> decide

/-- dropWhile isWS is the identity on all-digit strings. -/
theorem dropWhileWS_digits (l : List Char) (h : l.all Char.isDigit = true) :
    l.dropWhile isWS = l := by
  cases l with
  | nil => rfl
  | cons c r =>
    rw [List.dropWhile_cons]
    have hc : c.isDigit = true := by
      rw [List.all_cons] at h
      exact (Bool.and_eq_true_iff.mp h).1
    cases hw : isWS c with
    | false => rw [if_neg (by simp [hw])]
    | true => rw [isWS_not_digit c hw] at hc; exact absurd hc (by simp)

/-- pyStrip is the identity on all-digit strings. -/
theorem pyStrip_digits (l : List Char) (h : l.all Char.isDigit = true) :
    pyStrip l = l := by
  unfold pyStrip
  rw [dropWhileWS_digits l h, dropWhileWS_digits l.reverse (by rw [List.all_reverse]; exact h),
    List.reverse_reverse]

/-- Python int on a non-empty digit string. -/
theorem pyIntOfStr_digits (l : List Char) (hne : l ≠ [])
    (h : l.all Char.isDigit = true) :
    pyIntOfStr l = some ((digitsToNat l : Int)) := by
  unfold pyIntOfStr
  rw [pyStrip_digits l h]
  cases l with
  | nil => exact absurd rfl hne
  | cons c r =>
    have hc : c.isDigit = true := by
      rw [List.all_cons] at h
      exact (Bool.and_eq_true_iff.mp h).1
    split
    · rename_i heq
      simp at heq
    · rename_i ds heq
      injection heq with h1 h2
      rw [h1] at hc
      exact absurd hc (by decide)
    · rename_i ds heq
      injection heq with h1 h2
      rw [h1] at hc
      exact absurd hc (by decide)
    · rw [if_pos h]

/-- pySplitOn with no separator present. -/
theorem pySplitOn_no_sep (sep : Char) (l : List Char) (h : sep ∉ l) :
    pySplitOn sep l = [l] := by
  induction l with
  | nil => rfl
  | cons c rest ih =>
    unfold pySplitOn
    rw [if_neg (fun hc => h (by rw [← hc]; exact List.mem_cons_self c rest))]
    rw [ih (fun hm => h (List.mem_cons_of_mem c hm))]

/-- pySplitOn around a single separator occurrence. -/
theorem pySplitOn_mid (d1 d2 : List Char) (h1 : '-' ∉ d1) (h2 : '-' ∉ d2) :
    pySplitOn '-' (d1 ++ '-' :: d2) = [d1, d2] := by
  induction d1 with
  | nil =>
    show pySplitOn '-' ('-' :: d2) = [[], d2]
    unfold pySplitOn
    rw [if_pos rfl, pySplitOn_no_sep '-' d2 h2]
  | cons c r ih =>
    have hc : c ≠ '-' := fun hc => h1 (by rw [← hc]; exact List.mem_cons_self c r)
    show pySplitOn '-' (c :: (r ++ '-' :: d2)) = [c :: r, d2]
    unfold pySplitOn
    rw [if_neg hc, ih (fun hm => h1 (List.mem_cons_of_mem c hm))]

/-- A digit string contains no dash. -/
theorem no_dash_of_digits (l : List Char) (h : l.all Char.isDigit = true) :
    '-' ∉ l := by
  intro hm
  have := List.all_eq_true.mp h '-' hm
  exact absurd this (by decide)

/-- takeWhile over an all-digit string followed by a dash. -/
theorem takeWhile_digits_dash (d1 t : List Char) (h : d1.all Char.isDigit = true) :
    (d1 ++ '-' :: t).takeWhile Char.isDigit = d1 := by
  induction d1 with
  | nil =>
    show ('-' :: t).takeWhile Char.isDigit = []
    rw [List.takeWhile_cons, if_neg (by decide)]
  | cons c r ih =>
    rw [List.all_cons] at h
    rcases Bool.and_eq_true_iff.mp h with ⟨hc, hr⟩
    show ((c :: (r ++ '-' :: t)).takeWhile Char.isDigit) = c :: r
    rw [List.takeWhile_cons, if_pos (by simp [hc]), ih hr]

/-- takeWhile is the identity on all-digit strings. -/
theorem takeWhile_digits_self (l : List Char) (h : l.all Char.isDigit = true) :
    l.takeWhile Char.isDigit = l := by
  induction l with
  | nil => rfl
  | cons c r ih =>
    rw [List.all_cons] at h
    rcases Bool.and_eq_true_iff.mp h with ⟨hc, hr⟩
    rw [List.takeWhile_cons, if_pos (by simp [hc]), ih hr]

/-- A non-empty digit string is a well-formed identifier. -/
theorem wfId_digits (l : List Char) (hne : l ≠ []) (h : l.all Char.isDigit = true) :
    wfId l = true := by
  unfold wfId idFull
  rw [takeWhile_digits_self l h]
  rw [if_neg (by simp [hne])]
  rw [List.drop_length]

/-- A digit string, a dash and a digit string form a well-formed
identifier. -/
theorem wfId_composite (d1 d2 : List Char) (h1ne : d1 ≠ [])
    (h1 : d1.all Char.isDigit = true) (h2ne : d2 ≠ [])
    (h2 : d2.all Char.isDigit = true) : wfId (d1 ++ '-' :: d2) = true := by
  unfold wfId idFull
  rw [takeWhile_digits_dash d1 d2 h1]
  rw [if_neg (by simp [h1ne])]
  rw [List.drop_left]
  simp [h2ne, h2]

/-- Every well-formed identifier is a digit string, optionally a digit
string with a dashed digit sub-index. -/
theorem wfId_shape (a : List Char) (h : wfId a = true) :
    (a ≠ [] ∧ a.all Char.isDigit = true) ∨
    (∃ d1 d2, a = d1 ++ '-' :: d2 ∧ d1 ≠ [] ∧ d1.all Char.isDigit = true ∧
      d2 ≠ [] ∧ d2.all Char.isDigit = true) := by
  unfold wfId idFull at h
  by_cases he : (a.takeWhile Char.isDigit).isEmpty
  · rw [if_pos he] at h
    exact absurd h (by simp)
  · rw [if_neg he] at h
    have ha : a.takeWhile Char.isDigit ++ a.drop (a.takeWhile Char.isDigit).length = a := by
      have h2 : a.drop (a.takeWhile Char.isDigit).length = a.dropWhile Char.isDigit := by
        clear h he
        induction a with
        | nil => rfl
        | cons c r ih =>
          rw [List.takeWhile_cons, List.dropWhile_cons]
          by_cases hc : c.isDigit
          · rw [if_pos hc, if_pos hc]
            simpa using ih
          · rw [if_neg hc, if_neg hc]
            rfl
      rw [h2]
      exact List.takeWhile_append_dropWhile Char.isDigit a
    rcases hdrop : a.drop (a.takeWhile Char.isDigit).length with _ | ⟨c, r2⟩
    · left
      rw [hdrop, List.append_nil] at ha
      constructor
      · rw [← ha]
        intro h0
        rw [h0] at he
        exact he rfl
      · rw [← ha]
        exact List.all_takeWhile
    · rw [hdrop] at h ha
      split at h
      · rename_i heq
        simp at heq
      · rename_i r2' heq
        injection heq with hq1 hq2
        right
        refine ⟨a.takeWhile Char.isDigit, r2', ?_, ?_, List.all_takeWhile, ?_, ?_⟩
        · rw [hq1, hq2] at ha
          exact ha.symm
        · intro h0
          rw [h0] at he
          exact he rfl
        · have h5 := (Bool.and_eq_true_iff.mp h).1
          simpa using h5
        · exact (Bool.and_eq_true_iff.mp h).2
      · exact absurd h (by simp)

/-- sort_key of a plain digit identifier. -/
theorem sort_key_digits (a : List Char) (hne : a ≠ [])
    (h : a.all Char.isDigit = true) :
    sort_key a = [(digitsToNat a : Int)] := by
  have hm : [a].mapM pyIntOfStr = some [(digitsToNat a : Int)] := by
    simp [List.mapM, List.mapM.loop, pyIntOfStr_digits a hne h]
  unfold sort_key
  dsimp only
  rw [pySplitOn_no_sep '-' a (no_dash_of_digits a h), hm]

/-- sort_key of a composite identifier. -/
theorem sort_key_composite (d1 d2 : List Char) (h1ne : d1 ≠ [])
    (h1 : d1.all Char.isDigit = true) (h2ne : d2 ≠ [])
    (h2 : d2.all Char.isDigit = true) :
    sort_key (d1 ++ '-' :: d2) = [(digitsToNat d1 : Int), (digitsToNat d2 : Int)] := by
  have hm : [d1, d2].mapM pyIntOfStr =
      some [(digitsToNat d1 : Int), (digitsToNat d2 : Int)] := by
    simp [List.mapM, List.mapM.loop, pyIntOfStr_digits d1 h1ne h1,
      pyIntOfStr_digits d2 h2ne h2]
  unfold sort_key
  dsimp only
  rw [pySplitOn_mid d1 d2 (no_dash_of_digits d1 h1) (no_dash_of_digits d2 h2), hm]

/-- parseBaseSub of a plain digit identifier. -/
theorem parseBaseSub_digits (a : List Char) (h : a.all Char.isDigit = true) :
    parseBaseSub a = (digitsToNat a, none) := by
  unfold parseBaseSub
  (try dsimp only)
  rw [takeWhile_digits_self a h, List.drop_length]

/-- parseBaseSub of a composite identifier. -/
theorem parseBaseSub_composite (d1 d2 : List Char)
    (h1 : d1.all Char.isDigit = true) (h2 : d2.all Char.isDigit = true) :
    parseBaseSub (d1 ++ '-' :: d2) = (digitsToNat d1, some (digitsToNat d2)) := by
  unfold parseBaseSub
  (try dsimp only)
  rw [takeWhile_digits_dash d1 d2 h1, List.drop_left]
  split
  · rename_i r heq
    injection heq with hq1 hq2
    subst hq2
    rw [takeWhile_digits_self d2 h2]
  · rename_i hx
    exact absurd rfl (hx d2)

/-- pyListLe with an empty left list. -/
theorem pyListLe_nil (b : List Int) : pyListLe [] b = true := rfl

/-- pyListLe of a non-empty list against the empty list. -/
theorem pyListLe_cons_nil (x : Int) (xs : List Int) :
    pyListLe (x :: xs) [] = false := rfl

/-- Characterization of pyListLe on two non-empty lists. -/
theorem pyListLe_cons_iff (x y : Int) (xs ys : List Int) :
    pyListLe (x :: xs) (y :: ys) = true ↔
      (x < y ∨ (x = y ∧ pyListLe xs ys = true)) := by
  show (if x < y then true else if y < x then false else pyListLe xs ys) = true ↔ _
  rcases lt_trichotomy x y with h | h | h
  · rw [if_pos h]
    simp [h]
  · subst h
    rw [if_neg (lt_irrefl x), if_neg (lt_irrefl x)]
    constructor
    · intro hp
      exact Or.inr ⟨rfl, hp⟩
    · rintro (h2 | ⟨_, hp⟩)
      · exact absurd h2 (lt_irrefl x)
      · exact hp
  · rw [if_neg (asymm h), if_pos h]
    constructor
    · intro hp
      exact absurd hp (by simp)
    · rintro (h2 | ⟨h2, _⟩)
      · exact absurd h2 (asymm h)
      · exact absurd h2 (ne_of_gt h)

/-- Totality of the Python list comparison. -/
theorem pyListLe_total (a : List Int) :
    ∀ b, pyListLe a b = true ∨ pyListLe b a = true := by
  induction a with
  | nil =>
    intro b
    exact Or.inl (pyListLe_nil b)
  | cons x xs ih =>
    intro b
    cases b with
    | nil => exact Or.inr (pyListLe_nil (x :: xs))
    | cons y ys =>
      rcases lt_trichotomy x y with h | h | h
      · exact Or.inl ((pyListLe_cons_iff x y xs ys).mpr (Or.inl h))
      · subst h
        rcases ih ys with h2 | h2
        · exact Or.inl ((pyListLe_cons_iff x x xs ys).mpr (Or.inr ⟨rfl, h2⟩))
        · exact Or.inr ((pyListLe_cons_iff x x ys xs).mpr (Or.inr ⟨rfl, h2⟩))
      · exact Or.inr ((pyListLe_cons_iff y x ys xs).mpr (Or.inl h))

/-- Transitivity of the Python list comparison. -/
theorem pyListLe_trans (a : List Int) :
    ∀ b c, pyListLe a b = true → pyListLe b c = true → pyListLe a c = true := by
  induction a with
  | nil =>
    intro b c _ _
    exact pyListLe_nil c
  | cons x xs ih =>
    intro b c hab hbc
    cases b with
    | nil => exact absurd hab (by rw [pyListLe_cons_nil]; simp)
    | cons y ys =>
      cases c with
      | nil => exact absurd hbc (by rw [pyListLe_cons_nil]; simp)
      | cons z zs =>
        rcases (pyListLe_cons_iff x y xs ys).mp hab with h1 | ⟨h1, h1r⟩ <;>
          rcases (pyListLe_cons_iff y z ys zs).mp hbc with h2 | ⟨h2, h2r⟩
        · exact (pyListLe_cons_iff x z xs zs).mpr (Or.inl (lt_trans h1 h2))
        · exact (pyListLe_cons_iff x z xs zs).mpr (Or.inl (h2 ▸ h1))
        · exact (pyListLe_cons_iff x z xs zs).mpr (Or.inl (h1 ▸ h2))
        · exact (pyListLe_cons_iff x z xs zs).mpr
            (Or.inr ⟨h1.trans h2, ih ys zs h1r h2r⟩)

/-- On well-formed identifiers the Python key comparison coincides with
the claimed (base, sub-index) ordering. -/
theorem key_le_iff (a b : List Char) (ha : wfId a = true) (hb : wfId b = true) :
    pyKeyLe a b ↔ specIdLe a b := by
  unfold pyKeyLe specIdLe
  rcases wfId_shape a ha with ⟨hane, haD⟩ | ⟨d1, d2, haeq, h1ne, h1D, h2ne, h2D⟩ <;>
    rcases wfId_shape b hb with ⟨hbne, hbD⟩ | ⟨e1, e2, hbeq, g1ne, g1D, g2ne, g2D⟩
  · rw [sort_key_digits a hane haD, sort_key_digits b hbne hbD,
      parseBaseSub_digits a haD, parseBaseSub_digits b hbD]
    simp [pyListLe_cons_iff, pyListLe_nil]
  · subst hbeq
    rw [sort_key_digits a hane haD, sort_key_composite e1 e2 g1ne g1D g2ne g2D,
      parseBaseSub_digits a haD, parseBaseSub_composite e1 e2 g1D g2D]
    simp [pyListLe_cons_iff, pyListLe_nil]
  · subst haeq
    rw [sort_key_composite d1 d2 h1ne h1D h2ne h2D, sort_key_digits b hbne hbD,
      parseBaseSub_composite d1 d2 h1D h2D, parseBaseSub_digits b hbD]
    simp [pyListLe_cons_iff, pyListLe_cons_nil]
  · subst haeq
    subst hbeq
    rw [sort_key_composite d1 d2 h1ne h1D h2ne h2D,
      sort_key_composite e1 e2 g1ne g1D g2ne g2D,
      parseBaseSub_composite d1 d2 h1D h2D, parseBaseSub_composite e1 e2 g1D g2D]
    simp [pyListLe_cons_iff, pyListLe_cons_nil, pyListLe_nil]
    omega

/-- Every identifier the v5 id regex accepts is well-formed. -/
theorem v5IdMatch_wf (l potId : List Char) (c : Option (List Char))
    (h : v5IdMatch l = some (potId, c)) : wfId potId = true := by
  unfold v5IdMatch at h
  dsimp only at h
  split at h
  · simp at h
  · rename_i hd
    have hall : (l.takeWhile Char.isDigit).all Char.isDigit = true := List.all_takeWhile
    split at h
    · have hp := Option.some.inj h
      have hpot : potId = _ := (congrArg Prod.fst hp).symm
      rw [hpot]
      split
      · rename_i r2 heq
        split
        · exact wfId_digits _ hd hall
        · rename_i hne
          exact wfId_composite _ _ hd hall hne List.all_takeWhile
      · exact wfId_digits _ hd hall
    · split at h
      · have hp := Option.some.inj h
        have hpot : potId = _ := (congrArg Prod.fst hp).symm
        rw [hpot]
        split
        · rename_i r2 heq
          split
          · exact wfId_digits _ hd hall
          · rename_i hne
            exact wfId_composite _ _ hd hall hne List.all_takeWhile
        · exact wfId_digits _ hd hall
      · simp at h

/-- The block-collection step preserves well-formedness of all block
identifiers. -/
theorem v5CollectLine_wf (st : V5Phase1) (l : List Char) (h : v5P1Wf st) :
    v5P1Wf (v5CollectLine st l) := by
  unfold v5CollectLine
  dsimp only
  split
  · exact h
  · split
    · exact h
    · split
      · rename_i idStr content heq
        split at heq
        · rename_i potId contentO hq
          split at heq
          · simp at heq
          · split at heq
            · have hp := Option.some.inj heq
              have hid : idStr = potId := (congrArg Prod.fst hp).symm
              constructor
              · intro b hb
                dsimp only at hb
                rcases hcur : st.cur with _ | cb
                · rw [hcur] at hb
                  dsimp only at hb
                  exact h.1 b hb
                · rw [hcur] at hb
                  dsimp only at hb
                  rcases List.mem_append.mp hb with h2 | h2
                  · exact h.1 b h2
                  · simp at h2
                    rw [h2]
                    exact h.2 cb hcur
              · intro b hb
                have hb2 := Option.some.inj hb
                rw [← hb2]
                split
                · rw [hid]
                  exact v5IdMatch_wf (pyStrip l) potId contentO hq
                · rw [hid]
                  exact v5IdMatch_wf (pyStrip l) potId contentO hq
            · simp at heq
        · simp at heq
      · split
        · rename_i cb hcur
          constructor
          · intro b hb
            exact h.1 b hb
          · intro b hb
            have hb2 := Option.some.inj hb
            rw [← hb2]
            exact h.2 cb hcur
        · exact h

/-- Block processing preserves well-formedness of all dictionary
keys. -/
theorem v5ProcessBlock_wf (d : V5Dicts) (b : V5Block) (hb : wfId b.id = true)
    (h : v5DictsWf d) : v5DictsWf (v5ProcessBlock d b) := by
  unfold v5ProcessBlock
  dsimp only
  split
  · split
    · exact h
    · constructor
      · intro p hp
        rcases List.mem_append.mp hp with h1 | h1
        · exact h.1 p h1
        · simp at h1
          rw [h1]
          exact hb
      · exact h.2
  · refine ⟨h.1, ?_⟩
    intro p hp
    unfold qInsert at hp
    split at hp
    · rcases List.mem_map.mp hp with ⟨q, hq, hqe⟩
      by_cases hqb : q.1 == b.id
      · rw [if_pos hqb] at hqe
        rw [← hqe]
        exact h.2 q hq
      · rw [if_neg hqb] at hqe
        rw [← hqe]
        exact h.2 q hq
    · rcases List.mem_append.mp hp with h1 | h1
      · exact h.2 p h1
      · simp at h1
        rw [h1]
        exact hb

/-- All identifiers of the union of the answer and question keys are
well-formed. -/
theorem v5AllIds_wf (d : V5Dicts) (h : v5DictsWf d) :
    ∀ s ∈ v5AllIds d, wfId s = true := by
  intro s hs
  unfold v5AllIds at hs
  dsimp only at hs
  rcases List.mem_append.mp hs with h1 | h1
  · rcases List.mem_map.mp h1 with ⟨p, hp, he⟩
    rw [← he]
    exact h.1 p hp
  · rcases List.mem_filter.mp h1 with ⟨h2, _⟩
    rcases List.mem_map.mp h2 with ⟨p, hp, he⟩
    rw [← he]
    exact h.2 p hp

/-- The Python sorted order on well-formed identifiers is the claimed
(base, sub-index) order. -/
theorem v5SortIds_sorted (ids : List (List Char))
    (h : ∀ s ∈ ids, wfId s = true) :
    List.Sorted specIdLe (v5SortIds ids) := by
  haveI : IsTotal (List Char) pyKeyLe :=
    ⟨fun a b => pyListLe_total (sort_key a) (sort_key b)⟩
  haveI : IsTrans (List Char) pyKeyLe :=
    ⟨fun a b c hab hbc => pyListLe_trans (sort_key a) (sort_key b) (sort_key c) hab hbc⟩
  have hs := List.sorted_insertionSort pyKeyLe ids
  unfold v5SortIds
  refine List.Pairwise.imp_of_mem ?_ hs
  intro a b hma hmb hab
  exact (key_le_iff a b (h a ((List.mem_insertionSort pyKeyLe).mp hma))
    (h b ((List.mem_insertionSort pyKeyLe).mp hmb))).mp hab

/-- The assembled item carries the identifier it was assembled for. -/
theorem v5Assemble_id (d : V5Dicts) (i : List Char) (it : V5Item)
    (h : v5Assemble d i = some it) : it.id = i := by
  unfold v5Assemble at h
  dsimp only at h
  split at h
  · simp at h
  · have h2 := Option.some.inj h
    exact (congrArg V5Item.id h2).symm

/-- The identifiers of the assembled items form a sublist of the
sorted identifier list. -/
theorem v5_map_id_sublist (d : V5Dicts) (ids : List (List Char)) :
    ((ids.filterMap (v5Assemble d)).map (fun it => it.id)).Sublist ids := by
  induction ids with
  | nil => simp
  | cons i rest ih =>
    rw [List.filterMap_cons]
    rcases ha : v5Assemble d i with _ | it
    · exact ih.cons i
    · rw [List.map_cons, v5Assemble_id d i it ha]
      exact ih.cons₂ i

/-- C5: the item list emitted by the v5 extractor is sorted by
identifier under the (base, sub-index) ordering with numeric
comparison, an identifier without sub-index sorting before one with a
sub-index for the same base; in particular the identifiers 2, 2-1, 10
sort as 2 < 2-1 < 10 (numeric, not lexicographic). -/
theorem C5_ordering :
    (∀ lines : List (List Char),
        List.Sorted specIdLe ((parse_chapter_text_v5 lines).map (fun it => it.id)))
    ∧ v5SortIds ["10".data, "2-1".data, "2".data] =
        ["2".data, "2-1".data, "10".data] := by
  constructor
  · intro lines
    unfold parse_chapter_text_v5
    dsimp only
    have hfold : ∀ (ls : List (List Char)) (st : V5Phase1), v5P1Wf st →
        v5P1Wf (ls.foldl v5CollectLine st) := by
      intro ls
      induction ls with
      | nil =>
        intro st h
        exact h
      | cons x rest ih =>
        intro st h
        exact ih _ (v5CollectLine_wf st x h)
    have h1 : v5P1Wf (lines.foldl v5CollectLine { blocks := [], cur := none }) :=
      hfold lines _ ⟨by simp, by simp⟩
    have hblocks : ∀ b ∈ (lines.foldl v5CollectLine { blocks := [], cur := none }).blocks ++
        (lines.foldl v5CollectLine { blocks := [], cur := none }).cur.toList,
        wfId b.id = true := by
      intro b hb
      rcases List.mem_append.mp hb with h2 | h2
      · exact h1.1 b h2
      · rcases hcur : (lines.foldl v5CollectLine { blocks := [], cur := none }).cur
          with _ | cb
        · rw [hcur] at h2
          simp at h2
        · rw [hcur] at h2
          simp at h2
          rw [h2]
          exact h1.2 cb hcur
    have hdfold : ∀ (bs : List V5Block) (d : V5Dicts), (∀ b ∈ bs, wfId b.id = true) →
        v5DictsWf d → v5DictsWf (bs.foldl v5ProcessBlock d) := by
      intro bs
      induction bs with
      | nil =>
        intro d _ h
        exact h
      | cons b rest ih =>
        intro d hb h
        exact ih _ (fun x hx => hb x (List.mem_cons_of_mem b hx))
          (v5ProcessBlock_wf d b (hb b (List.mem_cons_self b rest)) h)
    have hd : v5DictsWf (((lines.foldl v5CollectLine { blocks := [], cur := none }).blocks ++
        (lines.foldl v5CollectLine { blocks := [], cur := none }).cur.toList).foldl
        v5ProcessBlock { answers := [], explanations := [], questions := [] }) :=
      hdfold _ _ hblocks ⟨by simp, by simp⟩
    have hsorted := v5SortIds_sorted _ (v5AllIds_wf _ hd)
    exact List.Pairwise.sublist (v5_map_id_sublist _ _) hsorted
  · decide

/-- C8: when a bare sub-index continuation marker is classified as an
identifier header immediately after a block (the open block being
sealed by this very transition), the newly opened block's identifier
is the previous block's base composed with the sub-index; in
particular "-1" after block 1064 opens block 1064-1. -/
theorem C8_continuation :
    (∀ (st : V3State) (line sub : List Char) (c : V3ItemAcc),
        classify_line line = .ID_ONLY ('-' :: sub) →
        st.cur = some c →
        ∃ c2, (v3Step st line).cur = some c2 ∧
          c2.id = (c.id.takeWhile (fun ch => ch ≠ '-')) ++ '-' :: sub)
    ∧ ((["1064".data, "-1".data].foldl v3Step
        { items := [], cur := none, jbuf := [] }).cur.map (fun c => c.id)) =
        some "1064-1".data := by
  constructor
  · intro st line sub c hcl hcur
    unfold v3Step
    rw [hcl]
    dsimp only
    rw [hcur]
    dsimp only
    rw [List.getLast?_concat]
    exact ⟨_, rfl, rfl⟩
  · decide

/-- C8 witness: the composition equation at a concrete state holding
block 1064 when the marker "-1" arrives. -/
theorem C8_witness :
    ∃ c2, (v3Step { items := [], cur := some (v3Fresh "1064".data), jbuf := [] }
        "-1".data).cur = some c2 ∧
      c2.id = ((v3Fresh "1064".data).id.takeWhile (fun ch => ch ≠ '-')) ++
        '-' :: "1".data :=
  C8_continuation.1 _ _ "1".data _ (by decide) rfl

/-- C9: line classification is a total function into the closed set of
categories (the shallow embedding is pure by construction, and the
totality of the Lean function reflects that no input raises); any line
on which no confident-category guard fires lands in the
native-text/latin-text fallback branch. -/
theorem C9_classifier_total :
    (∀ raw : List Char,
        classify_line raw = .EMPTY ∨ classify_line raw = .GARBAGE ∨
        (∃ s, classify_line raw = .ID_ONLY s) ∨
        (∃ i t, classify_line raw = .ID_JAPANESE i t) ∨
        (∃ i t, classify_line raw = .ID_ENGLISH i t) ∨
        (∃ t, classify_line raw = .QUESTION_LINE t) ∨
        (∃ t, classify_line raw = .JAPANESE_LINE t) ∨
        (∃ t, classify_line raw = .ENGLISH_TEXT t))
    ∧ (∀ raw : List Char, v3ConfidentMatch (pyStrip raw) = false →
        classify_line raw = .JAPANESE_LINE (pyStrip raw) ∨
        classify_line raw = .ENGLISH_TEXT (pyStrip raw)) := by
  constructor
  · intro raw
    cases classify_line raw with
    | EMPTY => exact Or.inl rfl
    | GARBAGE => exact Or.inr (Or.inl rfl)
    | ID_ONLY s => exact Or.inr (Or.inr (Or.inl ⟨s, rfl⟩))
    | ID_JAPANESE i t => exact Or.inr (Or.inr (Or.inr (Or.inl ⟨i, t, rfl⟩)))
    | ID_ENGLISH i t =>
      exact Or.inr (Or.inr (Or.inr (Or.inr (Or.inl ⟨i, t, rfl⟩))))
    | QUESTION_LINE t =>
      exact Or.inr (Or.inr (Or.inr (Or.inr (Or.inr (Or.inl ⟨t, rfl⟩)))))
    | JAPANESE_LINE t =>
      exact Or.inr (Or.inr (Or.inr (Or.inr (Or.inr (Or.inr (Or.inl ⟨t, rfl⟩))))))
    | ENGLISH_TEXT t =>
      exact Or.inr (Or.inr (Or.inr (Or.inr (Or.inr (Or.inr (Or.inr ⟨t, rfl⟩))))))
  · intro raw hconf
    unfold v3ConfidentMatch at hconf
    simp only [Bool.or_eq_false_iff] at hconf
    obtain ⟨⟨⟨⟨⟨⟨⟨⟨⟨h1, h2⟩, h3⟩, h4⟩, h5⟩, h6⟩, h7⟩, h8⟩, h9⟩, h10⟩ := hconf
    unfold classify_line
    dsimp only
    rw [if_neg (show ¬ pyStrip raw = [] from fun hh => by rw [hh] at h1; simp at h1)]
    rw [if_neg (show ¬ tipPre.isPrefixOf (pyStrip raw) = true from by simp [h2])]
    rw [if_neg (show ¬ fCodePre (pyStrip raw) = true from by simp [h3])]
    rw [if_neg (show ¬ (wordsToUse.isPrefixOf (pyStrip raw) ||
      pyStrip raw == kihon) = true from by simp [h4, h5])]
    rw [if_neg (show ¬ chapterPre (pyStrip raw) = true from by simp [h6])]
    rw [if_neg (show ¬ (idFull (pyStrip raw) || negIdFull (pyStrip raw)) = true
      from by simp [h7, h8])]
    have hcontent : v3Content (pyStrip raw) = .JAPANESE_LINE (pyStrip raw) ∨
        v3Content (pyStrip raw) = .ENGLISH_TEXT (pyStrip raw) := by
      unfold v3Content
      rw [if_neg (show ¬ (((pyStrip raw).contains '(' || (pyStrip raw).contains '（') &&
        hasEmptyParens (pyStrip raw)) = true from by rw [h10]; simp)]
      by_cases hj : is_japanese_v3 (pyStrip raw)
      · exact Or.inl (by rw [if_pos hj])
      · exact Or.inr (by rw [if_neg hj])
    rcases hpair : v3IdPair (pyStrip raw) with _ | ⟨idStr, ws, rem⟩
    · exact hcontent
    · rw [hpair] at h9
      dsimp only
      dsimp only at h9
      simp only [Bool.or_eq_false_iff] at h9
      obtain ⟨h9a, h9b⟩ := h9
      have hidor : v3IdEnglishOr (pyStrip raw) idStr rem =
          .JAPANESE_LINE (pyStrip raw) ∨
          v3IdEnglishOr (pyStrip raw) idStr rem = .ENGLISH_TEXT (pyStrip raw) := by
        unfold v3IdEnglishOr
        rcases hrem : rem with _ | ⟨c0, r0⟩
        · exact hcontent
        · rw [hrem] at h9b
          dsimp only at h9b
          dsimp only
          rw [if_neg (by simp [h9b])]
          exact hcontent
      rcases hg2 : v3G2NonLatin ws rem with _ | g2
      · exact hidor
      · rw [hg2] at h9a
        dsimp only at h9a ⊢
        rw [if_neg (by simp [h9a])]
        exact hidor

/-- C9 witness: the fallback branch at a concrete unclassifiable
line. -/
theorem C9_witness :
    classify_line "hello world".data = .JAPANESE_LINE (pyStrip "hello world".data) ∨
    classify_line "hello world".data = .ENGLISH_TEXT (pyStrip "hello world".data) :=
  C9_classifier_total.2 "hello world".data (by decide)

/-- The run loop's colored segments are exactly the stripped texts of
the contributing runs, in order. -/
theorem v6_fold_segments (runs : List DocxRun) :
    ∀ acc : V6RunAcc, (runs.foldl v6ProcessRun acc).coloredSegments =
      acc.coloredSegments ++ (runs.filter v6Contributes).map (fun r => pyStrip r.text) := by
  induction runs with
  | nil =>
    intro acc
    simp
  | cons r rest ih =>
    intro acc
    rw [List.foldl_cons, ih]
    rw [List.filter_cons]
    unfold v6ProcessRun
    by_cases he : r.text.isEmpty
    · rw [if_pos he]
      rw [if_neg (show ¬ v6Contributes r = true from by
        unfold v6Contributes; simp [he])]
    · rw [if_neg he]
      by_cases hc : runIsColored r
      · rw [if_pos hc]
        rw [if_pos (show v6Contributes r = true from by
          unfold v6Contributes; simp [he, hc])]
        dsimp only
        rw [List.map_cons, List.append_cons, List.append_assoc]
        simp
      · rw [if_neg hc]
        rw [if_neg (show ¬ v6Contributes r = true from by
          unfold v6Contributes; simp [hc])]

/-- C10: a docx run contributes a segment to the authoritative
highlighted answer spans exactly when its text is non-empty, its font
color is set and differs from both white and black, and the text is
not composed solely of the filter glyphs; consequently a white-colored
(hidden) run is never among the contributing runs. -/
theorem C10_colored_runs :
    (∀ runs : List DocxRun,
        (v6ProcessRuns runs).coloredSegments =
          (runs.filter v6Contributes).map (fun r => pyStrip r.text))
    ∧ (∀ r : DocxRun, v6Contributes r = true →
        r.rgb ≠ some whiteRGB ∧ r.rgb ≠ some blackRGB ∧ r.rgb ≠ none ∧
        ¬(r.text ≠ [] ∧ r.text.all runFilterChar = true)) := by
  constructor
  · intro runs
    unfold v6ProcessRuns
    rw [v6_fold_segments runs]
    simp
  · intro r h
    unfold v6Contributes runIsColored at h
    rcases hrgb : r.rgb with _ | v
    · rw [hrgb] at h
      simp at h
    · rw [hrgb] at h
      simp only [Bool.and_eq_true_iff, decide_eq_true_eq, Bool.not_eq_true'] at h
      obtain ⟨hne, ⟨hw, hb⟩, hf⟩ := h
      refine ⟨?_, ?_, ?_, ?_⟩
      · intro hx
        exact hw (Option.some.inj hx)
      · intro hx
        exact hb (Option.some.inj hx)
      · simp
      · intro hx
        rw [Bool.and_eq_false_iff] at hf
        rcases hf with hf | hf
        · simp at hf
          exact hx.1 (by simpa using hf)
        · rw [hx.2] at hf
          simp at hf

/-- C10 witness: a concrete red-colored run satisfies the
contribution condition's consequences. -/
theorem C10_witness :
    ({ text := "sat".data, rgb := some (255, 0, 0) } : DocxRun).rgb ≠ some whiteRGB ∧
    ({ text := "sat".data, rgb := some (255, 0, 0) } : DocxRun).rgb ≠ some blackRGB ∧
    ({ text := "sat".data, rgb := some (255, 0, 0) } : DocxRun).rgb ≠ none ∧
    ¬(({ text := "sat".data, rgb := some (255, 0, 0) } : DocxRun).text ≠ [] ∧
      ({ text := "sat".data, rgb := some (255, 0, 0) } : DocxRun).text.all
        runFilterChar = true) :=
  C10_colored_runs.2 _ (by decide)
